import Mathlib

/-!
Verification of the unit-conversion and density-lookup core of the
`recipes_agent` repository.  Python floats are modelled as exact rationals
(`ℚ`), Python's fallible enum construction as `Option`, raised exceptions as
`Except`, and `None`-returning fallible calls as `Option`.
-/

namespace RecipesAgent

/-- Python's `str.lower()`; characters mapped pointwise (ASCII data here). -/
def strLower (s : String) : String := ⟨s.data.map Char.toLower⟩

/-- Python's `str.upper()`; characters mapped pointwise (ASCII data here). -/
def strUpper (s : String) : String := ⟨s.data.map Char.toUpper⟩

deriving instance DecidableEq for Except

/-- Python's built-in `round` with no `ndigits`: round half to even. -/
def roundHalfEven (q : ℚ) : ℤ :=
  if q - ⌊q⌋ < 1/2 then ⌊q⌋
  else if 1/2 < q - ⌊q⌋ then ⌊q⌋ + 1
  else if ⌊q⌋ % 2 = 0 then ⌊q⌋ else ⌊q⌋ + 1

/-- Python's `round(q, ndigits)`: round half to even at `ndigits` decimals. -/
def pyRound (ndigits : ℕ) (q : ℚ) : ℚ :=
  (roundHalfEven (q * 10 ^ ndigits) : ℚ) / 10 ^ ndigits

/-- `VolumeUnit` enum of `models/conversion.py`. -/
inductive VolumeUnit
  | ml | l | tsp | tbsp | flOz | cup | pint | quart | gallon
deriving DecidableEq, Repr

/-- The string value of each `VolumeUnit` member. -/
def VolumeUnit.str : VolumeUnit → String
  | .ml => "ml" | .l => "l" | .tsp => "tsp" | .tbsp => "tbsp" | .flOz => "fl oz"
  | .cup => "cup" | .pint => "pint" | .quart => "quart" | .gallon => "gallon"

/-- `VolumeUnit(s)`: constructing the enum from its value, `None` on failure. -/
def VolumeUnit.ofString (s : String) : Option VolumeUnit :=
  if s = "ml" then some .ml
  else if s = "l" then some .l
  else if s = "tsp" then some .tsp
  else if s = "tbsp" then some .tbsp
  else if s = "fl oz" then some .flOz
  else if s = "cup" then some .cup
  else if s = "pint" then some .pint
  else if s = "quart" then some .quart
  else if s = "gallon" then some .gallon
  else none

/-- `WeightUnit` enum of `models/conversion.py`. -/
inductive WeightUnit
  | g | kg | oz | lb
deriving DecidableEq, Repr

/-- The string value of each `WeightUnit` member. -/
def WeightUnit.str : WeightUnit → String
  | .g => "g" | .kg => "kg" | .oz => "oz" | .lb => "lb"

/-- `WeightUnit(s)`: constructing the enum from its value, `None` on failure. -/
def WeightUnit.ofString (s : String) : Option WeightUnit :=
  if s = "g" then some .g
  else if s = "kg" then some .kg
  else if s = "oz" then some .oz
  else if s = "lb" then some .lb
  else none

/-- `VOLUME_CONVERSIONS`: factor of each volume unit to milliliters. -/
def volume_conversions : VolumeUnit → ℚ
  | .ml => 1
  | .l => 1000
  | .tsp => 492892/100000
  | .tbsp => 147868/10000
  | .flOz => 295735/10000
  | .cup => 236588/1000
  | .pint => 473176/1000
  | .quart => 946353/1000
  | .gallon => 378541/100

/-- `WEIGHT_CONVERSIONS`: factor of each weight unit to grams. -/
def weight_conversions : WeightUnit → ℚ
  | .g => 1
  | .kg => 1000
  | .oz => 283495/10000
  | .lb => 453592/1000

/-- `INGREDIENT_DENSITIES` of `models/conversion.py`, in insertion order. -/
def ingredient_densities : List (String × ℚ) :=
  [("flour", 54/100), ("sugar", 85/100), ("brown sugar", 95/100),
   ("butter", 91/100), ("oil", 92/100), ("honey", 142/100), ("milk", 103/100),
   ("water", 1), ("salt", 12/10), ("baking powder", 9/10),
   ("baking soda", 22/10), ("vanilla", 88/100), ("cocoa powder", 41/100),
   ("powdered sugar", 56/100), ("rice", 75/100), ("oats", 41/100)]

/-- `ConversionResult` pydantic model of `models/conversion.py`. -/
structure ConversionResult where
  original_quantity : ℚ
  original_unit : String
  converted_quantity : ℚ
  converted_unit : String
  ingredient_name : Option String := none
  conversion_factor : ℚ
  is_approximation : Bool := false
  notes : Option String := none
deriving DecidableEq, Repr

/-- `smart_round` of `models/conversion.py`. -/
def smart_round (value : ℚ) (unit : String) : ℚ :=
  if unit = "ml" ∨ unit = "g" then
    if value < 1 then pyRound 1 value
    else if value < 10 then (roundHalfEven value : ℚ)
    else if value < 100 then (roundHalfEven value : ℚ)
    else (roundHalfEven value : ℚ)
  else if unit = "kg" ∨ unit = "l" then
    pyRound 2 value
  else
    pyRound 2 value

/-- `UnitConverter.convert_volume`; a raised `ValueError` is `Except.error`. -/
def convert_volume (quantity : ℚ) (from_unit to_unit : String) :
    Except String ConversionResult :=
  match VolumeUnit.ofString (strLower from_unit), VolumeUnit.ofString (strLower to_unit) with
  | some from_enum, some to_enum =>
      let base_quantity := quantity * volume_conversions from_enum
      let converted_quantity := base_quantity / volume_conversions to_enum
      .ok { original_quantity := quantity
            original_unit := from_unit
            converted_quantity := smart_round converted_quantity to_unit
            converted_unit := to_unit
            conversion_factor := volume_conversions from_enum / volume_conversions to_enum }
  | _, _ => .error ("Invalid volume units: " ++ from_unit ++ " or " ++ to_unit)

/-- `UnitConverter.convert_weight`; a raised `ValueError` is `Except.error`. -/
def convert_weight (quantity : ℚ) (from_unit to_unit : String) :
    Except String ConversionResult :=
  match WeightUnit.ofString (strLower from_unit), WeightUnit.ofString (strLower to_unit) with
  | some from_enum, some to_enum =>
      let base_quantity := quantity * weight_conversions from_enum
      let converted_quantity := base_quantity / weight_conversions to_enum
      .ok { original_quantity := quantity
            original_unit := from_unit
            converted_quantity := smart_round converted_quantity to_unit
            converted_unit := to_unit
            conversion_factor := weight_conversions from_enum / weight_conversions to_enum }
  | _, _ => .error ("Invalid weight units: " ++ from_unit ++ " or " ++ to_unit)

/-- `UnitConverter.convert_temperature`; a raised `ValueError` is `Except.error`. -/
def convert_temperature (temperature : ℚ) (from_unit to_unit : String) :
    Except String ConversionResult :=
  let fu := strUpper from_unit
  let tu := strUpper to_unit
  if fu = tu then
    .ok { original_quantity := temperature
          original_unit := fu
          converted_quantity := temperature
          converted_unit := tu
          conversion_factor := 1 }
  else if fu = "F" ∧ tu = "C" then
    .ok { original_quantity := temperature
          original_unit := fu
          converted_quantity := pyRound 1 ((temperature - 32) * 5/9)
          converted_unit := tu
          conversion_factor := 0 }
  else if fu = "C" ∧ tu = "F" then
    .ok { original_quantity := temperature
          original_unit := fu
          converted_quantity := pyRound 1 (temperature * 9/5 + 32)
          converted_unit := tu
          conversion_factor := 0 }
  else .error ("Invalid temperature units: " ++ fu ++ " or " ++ tu)

/-- Python's `needle in hay` on lists of characters. -/
def listPrefixOf : List Char → List Char → Bool
  | [], _ => true
  | _ :: _, [] => false
  | a :: as, b :: bs => a == b && listPrefixOf as bs

/-- Python's substring test `needle in hay` for strings. -/
def strContains (hay needle : String) : Bool :=
  go needle.data hay.data
where
  go (needle hay : List Char) : Bool :=
    match hay with
    | [] => needle.isEmpty
    | _ :: t => listPrefixOf needle hay || go needle t

/-- `UnitConverter._find_ingredient_key`: direct then partial (substring) match. -/
def find_ingredient_key (ingredient_name : String) : Option String :=
  let ingredient_lower := strLower ingredient_name
  if (ingredient_densities.find? (fun p => p.1 == ingredient_lower)).isSome then
    some ingredient_lower
  else
    (ingredient_densities.find?
      (fun p => strContains ingredient_lower p.1 || strContains p.1 ingredient_lower)).map
      Prod.fst

/-- Lookup of `self.ingredient_densities[key]`. -/
def densityOfKey (key : String) : Option ℚ :=
  (ingredient_densities.find? (fun p => p.1 == key)).map Prod.snd

/-- `UnitConverter.volume_to_weight`: density-based cross-family conversion. -/
def volume_to_weight (quantity : ℚ) (volume_unit ingredient_name : String) :
    Option ConversionResult :=
  match find_ingredient_key ingredient_name with
  | none => none
  | some ingredient_key =>
    match densityOfKey ingredient_key with
    | none => none
    | some density =>
      match VolumeUnit.ofString (strLower volume_unit) with
      | none => none
      | some volume_enum =>
        let volume_ml := quantity * volume_conversions volume_enum
        let weight_g := volume_ml * density
        some { original_quantity := quantity
               original_unit := volume_unit
               converted_quantity := smart_round weight_g "g"
               converted_unit := "g"
               ingredient_name := some ingredient_name
               conversion_factor := density
               is_approximation := true
               notes := some ("Approximation based on typical density of " ++ ingredient_name) }

/-- `UnitConverter.weight_to_volume`: density-based cross-family conversion. -/
def weight_to_volume (quantity : ℚ) (weight_unit ingredient_name : String) :
    Option ConversionResult :=
  match find_ingredient_key ingredient_name with
  | none => none
  | some ingredient_key =>
    match densityOfKey ingredient_key with
    | none => none
    | some density =>
      match WeightUnit.ofString (strLower weight_unit) with
      | none => none
      | some weight_enum =>
        let weight_g := quantity * weight_conversions weight_enum
        let volume_ml := weight_g / density
        some { original_quantity := quantity
               original_unit := weight_unit
               converted_quantity := smart_round volume_ml "ml"
               converted_unit := "ml"
               ingredient_name := some ingredient_name
               conversion_factor := 1/density
               is_approximation := true
               notes := some ("Approximation based on typical density of " ++ ingredient_name) }

/-- `strLower` fixes the lowercase unit strings used throughout. -/
theorem strLower_fixes (u : VolumeUnit) : strLower u.str = u.str := by
  cases u <;> decide

/-- `strLower` fixes the lowercase weight unit strings. -/
theorem strLower_fixes_w (u : WeightUnit) : strLower u.str = u.str := by
  cases u <;> decide

/-- Constructing a `VolumeUnit` from its own string value succeeds. -/
theorem volumeUnit_ofString_str (u : VolumeUnit) : VolumeUnit.ofString u.str = some u := by
  cases u <;> decide

/-- Constructing a `WeightUnit` from its own string value succeeds. -/
theorem weightUnit_ofString_str (u : WeightUnit) : WeightUnit.ofString u.str = some u := by
  cases u <;> decide

/-- Half-even rounding moves a value by at most one half. -/
theorem abs_roundHalfEven_sub_le (q : ℚ) : |(roundHalfEven q : ℚ) - q| ≤ 1/2 := by
  have h1 : (⌊q⌋ : ℚ) ≤ q := Int.floor_le q
  have h2 : q < ⌊q⌋ + 1 := Int.lt_floor_add_one q
  unfold roundHalfEven
  split_ifs with ha hb hc
  · rw [abs_le]; constructor <;> linarith
  · rw [abs_le]; push_cast; constructor <;> linarith
  · have hh : q - ⌊q⌋ = 1/2 := le_antisymm (not_lt.mp hb) (not_lt.mp ha)
    rw [abs_le]; constructor <;> linarith
  · have hh : q - ⌊q⌋ = 1/2 := le_antisymm (not_lt.mp hb) (not_lt.mp ha)
    rw [abs_le]; push_cast; constructor <;> linarith

/-- Rounding to `n` decimals moves a value by at most half of the last digit. -/
theorem abs_pyRound_sub_le (n : ℕ) (q : ℚ) : |pyRound n q - q| ≤ 1/2 / 10^n := by
  have hpos : (0:ℚ) < 10 ^ n := by positivity
  have hrw : pyRound n q - q = ((roundHalfEven (q * 10^n) : ℚ) - q * 10^n) / 10^n := by
    unfold pyRound; field_simp; ring
  rw [hrw, abs_div, abs_of_pos hpos]
  exact (div_le_div_iff_of_pos_right hpos).mpr (abs_roundHalfEven_sub_le (q * 10^n))

/-- Smart rounding moves a value by at most one half, for every target unit. -/
theorem abs_smart_round_sub_le (q : ℚ) (u : String) : |smart_round q u - q| ≤ 1/2 := by
  unfold smart_round
  split_ifs with h1 h2 h3 h4
  · exact le_trans (abs_pyRound_sub_le 1 q) (by norm_num)
  · exact abs_roundHalfEven_sub_le q
  · exact abs_roundHalfEven_sub_le q
  · exact abs_roundHalfEven_sub_le q
  · exact le_trans (abs_pyRound_sub_le 2 q) (by norm_num)
  · exact le_trans (abs_pyRound_sub_le 2 q) (by norm_num)

/-- `convert_volume` on canonical unit strings: always succeeds with the
linear factor conversion, smart-rounded. -/
theorem convert_volume_str (q : ℚ) (u1 u2 : VolumeUnit) :
    convert_volume q u1.str u2.str = .ok
      { original_quantity := q
        original_unit := u1.str
        converted_quantity :=
          smart_round (q * volume_conversions u1 / volume_conversions u2) u2.str
        converted_unit := u2.str
        conversion_factor := volume_conversions u1 / volume_conversions u2 } := by
  simp [convert_volume, strLower_fixes, volumeUnit_ofString_str]

/-- `convert_weight` on canonical unit strings: always succeeds with the
linear factor conversion, smart-rounded. -/
theorem convert_weight_str (q : ℚ) (u1 u2 : WeightUnit) :
    convert_weight q u1.str u2.str = .ok
      { original_quantity := q
        original_unit := u1.str
        converted_quantity :=
          smart_round (q * weight_conversions u1 / weight_conversions u2) u2.str
        converted_unit := u2.str
        conversion_factor := weight_conversions u1 / weight_conversions u2 } := by
  simp [convert_weight, strLower_fixes_w, weightUnit_ofString_str]

/-- `convert_volume` with an unparseable unit raises `ValueError` with a
message naming both unit arguments. -/
theorem convert_volume_invalid (q : ℚ) (fu tu : String)
    (h : VolumeUnit.ofString (strLower fu) = none ∨
         VolumeUnit.ofString (strLower tu) = none) :
    convert_volume q fu tu = .error ("Invalid volume units: " ++ fu ++ " or " ++ tu) := by
  unfold convert_volume
  rcases h with h | h
  · rw [h]
  · rw [h]; cases VolumeUnit.ofString (strLower fu) <;> rfl

/-- `convert_weight` with an unparseable unit raises `ValueError` with a
message naming both unit arguments. -/
theorem convert_weight_invalid (q : ℚ) (fu tu : String)
    (h : WeightUnit.ofString (strLower fu) = none ∨
         WeightUnit.ofString (strLower tu) = none) :
    convert_weight q fu tu = .error ("Invalid weight units: " ++ fu ++ " or " ++ tu) := by
  unfold convert_weight
  rcases h with h | h
  · rw [h]
  · rw [h]; cases WeightUnit.ofString (strLower fu) <;> rfl

example : (convert_volume 1 "cup" "ml").map ConversionResult.converted_quantity
    = .ok 237 := by
  have h1 : strLower "cup" = "cup" := by decide
  have h2 : strLower "ml" = "ml" := by decide
  have h3 : VolumeUnit.ofString "cup" = some .cup := by decide
  have h4 : VolumeUnit.ofString "ml" = some .ml := by decide
  simp only [convert_volume, h1, h2, h3, h4, Except.map]
  norm_num [smart_round, volume_conversions, roundHalfEven, pyRound]

example : (convert_temperature 350 "F" "C").map ConversionResult.converted_quantity
    = .ok (1767/10) := by
  have h1 : strUpper "F" = "F" := by decide
  have h2 : strUpper "C" = "C" := by decide
  have h3 : (("F" : String) = "C") = False := by decide
  simp only [convert_temperature, h1, h2, h3, if_false, Except.map]
  norm_num [pyRound, roundHalfEven]

example : (volume_to_weight 1 "cup" "flour").map ConversionResult.converted_quantity
    = some 128 := by
  have h1 : find_ingredient_key "flour" = some "flour" := by decide
  have h2 : densityOfKey "flour" = some (54/100) := rfl
  have h3 : strLower "cup" = "cup" := by decide
  have h4 : VolumeUnit.ofString "cup" = some .cup := by decide
  simp only [volume_to_weight, h1, h2, h3, h4, Option.map]
  norm_num [smart_round, volume_conversions, roundHalfEven, pyRound]

/-- A list is a Boolean prefix of itself followed by anything. -/
theorem listPrefixOf_append (s t : List Char) : listPrefixOf s (s ++ t) = true := by
  induction s with
  | nil => rfl
  | cons a as ih => simp [listPrefixOf, ih]

/-- The substring scan finds the needle at the start of the haystack. -/
theorem strContains_go_self_append (s post : List Char) :
    strContains.go s (s ++ post) = true := by
  cases s with
  | nil =>
    cases post with
    | nil => rfl
    | cons b bs => simp [strContains.go, listPrefixOf]
  | cons a as =>
    have hp := listPrefixOf_append (a :: as) post
    simp only [strContains.go, Bool.or_eq_true]
    exact Or.inl (by simpa using hp)

/-- The substring scan finds the needle anywhere in the haystack. -/
theorem strContains_go_append (pre s post : List Char) :
    strContains.go s (pre ++ (s ++ post)) = true := by
  induction pre with
  | nil => simpa using strContains_go_self_append s post
  | cons a t ih => simp [strContains.go, ih]

/-- `strContains` holds whenever the haystack splits around the needle. -/
theorem strContains_of_split (hay s : String) (pre post : List Char)
    (h : hay.data = pre ++ (s.data ++ post)) : strContains hay s = true := by
  unfold strContains; rw [h]; exact strContains_go_append pre s.data post

/-- The spec's smart-rounding policy, written from the spec's words: for ml/g
targets, one decimal below 1 and integer at 1 or greater; for kg/l and every
other (imperial) target, two decimals. -/
def smart_round_spec (value : ℚ) (unit : String) : ℚ :=
  if unit = "ml" ∨ unit = "g" then
    if value < 1 then pyRound 1 value else (roundHalfEven value : ℚ)
  else
    pyRound 2 value

/-- The concrete result of `convert_volume(1.0, "cup", "ml")`. -/
def cupMlResult : ConversionResult :=
  { original_quantity := 1
    original_unit := "cup"
    converted_quantity := 237
    converted_unit := "ml"
    conversion_factor := 236588/1000 }

/-- `convert_volume(1.0, "cup", "ml")` evaluates to `cupMlResult`. -/
theorem convert_volume_cup_ml : convert_volume 1 "cup" "ml" = .ok cupMlResult := by
  have h := convert_volume_str 1 VolumeUnit.cup VolumeUnit.ml
  rw [show VolumeUnit.cup.str = "cup" from rfl, show VolumeUnit.ml.str = "ml" from rfl] at h
  rw [h, cupMlResult]
  norm_num [smart_round, volume_conversions, roundHalfEven, pyRound]

/-- The concrete result of `volume_to_weight(1.0, "cup", "flour")`. -/
def cupFlourResult : ConversionResult :=
  { original_quantity := 1
    original_unit := "cup"
    converted_quantity := 128
    converted_unit := "g"
    ingredient_name := some "flour"
    conversion_factor := 54/100
    is_approximation := true
    notes := some "Approximation based on typical density of flour" }

/-- `volume_to_weight(1.0, "cup", "flour")` evaluates to `cupFlourResult`. -/
theorem volume_to_weight_cup_flour :
    volume_to_weight 1 "cup" "flour" = some cupFlourResult := by
  have h1 : find_ingredient_key "flour" = some "flour" := by decide
  have h2 : densityOfKey "flour" = some (54/100) := rfl
  have h3 : strLower "cup" = "cup" := by decide
  have h4 : VolumeUnit.ofString "cup" = some .cup := by decide
  simp only [volume_to_weight, h1, h2, h3, h4, cupFlourResult]
  norm_num [smart_round, volume_conversions, roundHalfEven, pyRound]
  decide

/-- C1: every result of `convert_volume`, `convert_weight` and
`convert_temperature` (same-family conversions) carries
`is_approximation = false`, and every result of `volume_to_weight` and
`weight_to_volume` (density-based cross-family conversions) carries
`is_approximation = true`. -/
theorem approximation_flag_cross_family :
    (∀ (q : ℚ) (u1 u2 : String) (r : ConversionResult),
        convert_volume q u1 u2 = .ok r → r.is_approximation = false) ∧
    (∀ (q : ℚ) (u1 u2 : String) (r : ConversionResult),
        convert_weight q u1 u2 = .ok r → r.is_approximation = false) ∧
    (∀ (q : ℚ) (u1 u2 : String) (r : ConversionResult),
        convert_temperature q u1 u2 = .ok r → r.is_approximation = false) ∧
    (∀ (q : ℚ) (u n : String) (r : ConversionResult),
        volume_to_weight q u n = some r → r.is_approximation = true) ∧
    (∀ (q : ℚ) (u n : String) (r : ConversionResult),
        weight_to_volume q u n = some r → r.is_approximation = true) := by
  refine ⟨?_, ?_, ?_, ?_, ?_⟩
  · intro q u1 u2 r h
    unfold convert_volume at h
    split at h
    · obtain rfl := Except.ok.inj h; rfl
    · exact Except.noConfusion h
  · intro q u1 u2 r h
    unfold convert_weight at h
    split at h
    · obtain rfl := Except.ok.inj h; rfl
    · exact Except.noConfusion h
  · intro q u1 u2 r h
    simp only [convert_temperature] at h
    split_ifs at h <;> (obtain rfl := Except.ok.inj h; rfl)
  · intro q u n r h
    unfold volume_to_weight at h
    split at h
    · exact Option.noConfusion h
    · split at h
      · exact Option.noConfusion h
      · split at h
        · exact Option.noConfusion h
        · obtain rfl := Option.some.inj h; rfl
  · intro q u n r h
    unfold weight_to_volume at h
    split at h
    · exact Option.noConfusion h
    · split at h
      · exact Option.noConfusion h
      · split at h
        · exact Option.noConfusion h
        · obtain rfl := Option.some.inj h; rfl

/-- Witness for the approximation-flag theorem at the concrete conversions
`convert_volume(1, "cup", "ml")` and `volume_to_weight(1, "cup", "flour")`. -/
theorem approximation_flag_cross_family_witness :
    cupMlResult.is_approximation = false ∧ cupFlourResult.is_approximation = true :=
  ⟨approximation_flag_cross_family.1 1 "cup" "ml" cupMlResult convert_volume_cup_ml,
   approximation_flag_cross_family.2.2.2.1 1 "cup" "flour" cupFlourResult
     volume_to_weight_cup_flour⟩

/-- C4: `smart_round` implements the spec's rounding policy (ml/g: one decimal
below 1, integer at 1 or greater; kg/l and all other units: two decimals);
every quantity returned by the four unit converters is the smart-rounded raw
value; and `convert_volume(1.0, "cup", "ml")` returns 237 ml, not an
approximation. -/
theorem smart_rounding_policy :
    (∀ (v : ℚ) (u : String), smart_round v u = smart_round_spec v u) ∧
    (∀ (q : ℚ) (u1 u2 : VolumeUnit) (r : ConversionResult),
        convert_volume q u1.str u2.str = .ok r →
        r.converted_quantity =
          smart_round (q * volume_conversions u1 / volume_conversions u2) u2.str) ∧
    (∀ (q : ℚ) (u1 u2 : WeightUnit) (r : ConversionResult),
        convert_weight q u1.str u2.str = .ok r →
        r.converted_quantity =
          smart_round (q * weight_conversions u1 / weight_conversions u2) u2.str) ∧
    (∀ (q : ℚ) (u n : String) (r : ConversionResult),
        volume_to_weight q u n = some r →
        ∃ ue : VolumeUnit, VolumeUnit.ofString (strLower u) = some ue ∧
          r.converted_quantity =
            smart_round (q * volume_conversions ue * r.conversion_factor) "g") ∧
    (∀ (q : ℚ) (u n : String) (r : ConversionResult),
        weight_to_volume q u n = some r →
        ∃ ue : WeightUnit, WeightUnit.ofString (strLower u) = some ue ∧
          r.converted_quantity =
            smart_round (q * weight_conversions ue * r.conversion_factor) "ml") ∧
    ((convert_volume 1 "cup" "ml").map
        (fun r => (r.converted_quantity, r.is_approximation)) = .ok (237, false)) := by
  refine ⟨?_, ?_, ?_, ?_, ?_, ?_⟩
  · intro v u
    unfold smart_round smart_round_spec
    split_ifs <;> rfl
  · intro q u1 u2 r h
    rw [convert_volume_str] at h
    obtain rfl := Except.ok.inj h
    rfl
  · intro q u1 u2 r h
    rw [convert_weight_str] at h
    obtain rfl := Except.ok.inj h
    rfl
  · intro q u n r h
    cases hk : find_ingredient_key n with
    | none =>
      simp only [volume_to_weight, hk] at h
      exact Option.noConfusion h
    | some k =>
      cases hd : densityOfKey k with
      | none =>
        simp only [volume_to_weight, hk, hd] at h
        exact Option.noConfusion h
      | some d =>
        cases hu : VolumeUnit.ofString (strLower u) with
        | none =>
          simp only [volume_to_weight, hk, hd, hu] at h
          exact Option.noConfusion h
        | some ue =>
          simp only [volume_to_weight, hk, hd, hu, Option.some.injEq] at h
          subst h
          exact ⟨ue, rfl, rfl⟩
  · intro q u n r h
    cases hk : find_ingredient_key n with
    | none =>
      simp only [weight_to_volume, hk] at h
      exact Option.noConfusion h
    | some k =>
      cases hd : densityOfKey k with
      | none =>
        simp only [weight_to_volume, hk, hd] at h
        exact Option.noConfusion h
      | some d =>
        cases hu : WeightUnit.ofString (strLower u) with
        | none =>
          simp only [weight_to_volume, hk, hd, hu] at h
          exact Option.noConfusion h
        | some ue =>
          simp only [weight_to_volume, hk, hd, hu, Option.some.injEq] at h
          subst h
          refine ⟨ue, rfl, ?_⟩
          show smart_round (q * weight_conversions ue / d) "ml"
              = smart_round (q * weight_conversions ue * (1/d)) "ml"
          rw [div_eq_mul_one_div]
  · rw [convert_volume_cup_ml]
    rfl

/-- Witness for the smart-rounding theorem: the second conjunct applied to the
concrete conversion of 1 cup to ml. -/
theorem smart_rounding_policy_witness :
    cupMlResult.converted_quantity =
      smart_round (1 * volume_conversions .cup / volume_conversions .ml)
        VolumeUnit.ml.str :=
  smart_rounding_policy.2.1 1 VolumeUnit.cup VolumeUnit.ml cupMlResult
    convert_volume_cup_ml

/-- C7: `convert_volume` and `convert_weight` raise exactly when a unit string
is not in the requested family's table, with an error message naming the
offending unit(s); when both units are in the table they never raise and
return `value * factor(from_unit) / factor(to_unit)`, smart-rounded, with the
family's conversion factor. -/
theorem invalid_unit_error_behavior : ∀ (q : ℚ) (fu tu : String),
    ((VolumeUnit.ofString (strLower fu) = none ∨
        VolumeUnit.ofString (strLower tu) = none) →
      convert_volume q fu tu = .error ("Invalid volume units: " ++ fu ++ " or " ++ tu) ∧
      strContains ("Invalid volume units: " ++ fu ++ " or " ++ tu) fu = true ∧
      strContains ("Invalid volume units: " ++ fu ++ " or " ++ tu) tu = true) ∧
    (∀ fe te, VolumeUnit.ofString (strLower fu) = some fe →
      VolumeUnit.ofString (strLower tu) = some te →
      convert_volume q fu tu = .ok
        { original_quantity := q
          original_unit := fu
          converted_quantity :=
            smart_round (q * volume_conversions fe / volume_conversions te) tu
          converted_unit := tu
          conversion_factor := volume_conversions fe / volume_conversions te }) ∧
    ((WeightUnit.ofString (strLower fu) = none ∨
        WeightUnit.ofString (strLower tu) = none) →
      convert_weight q fu tu = .error ("Invalid weight units: " ++ fu ++ " or " ++ tu) ∧
      strContains ("Invalid weight units: " ++ fu ++ " or " ++ tu) fu = true ∧
      strContains ("Invalid weight units: " ++ fu ++ " or " ++ tu) tu = true) ∧
    (∀ fe te, WeightUnit.ofString (strLower fu) = some fe →
      WeightUnit.ofString (strLower tu) = some te →
      convert_weight q fu tu = .ok
        { original_quantity := q
          original_unit := fu
          converted_quantity :=
            smart_round (q * weight_conversions fe / weight_conversions te) tu
          converted_unit := tu
          conversion_factor := weight_conversions fe / weight_conversions te }) := by
  intro q fu tu
  refine ⟨?_, ?_, ?_, ?_⟩
  · intro h
    refine ⟨convert_volume_invalid q fu tu h, ?_, ?_⟩
    · refine strContains_of_split _ _ "Invalid volume units: ".data
        (" or ".data ++ tu.data) ?_
      simp [String.data_append, List.append_assoc]
    · refine strContains_of_split _ _
        ("Invalid volume units: ".data ++ fu.data ++ " or ".data) [] ?_
      simp [String.data_append, List.append_assoc]
  · intro fe te h1 h2
    unfold convert_volume
    rw [h1, h2]
  · intro h
    refine ⟨convert_weight_invalid q fu tu h, ?_, ?_⟩
    · refine strContains_of_split _ _ "Invalid weight units: ".data
        (" or ".data ++ tu.data) ?_
      simp [String.data_append, List.append_assoc]
    · refine strContains_of_split _ _
        ("Invalid weight units: ".data ++ fu.data ++ " or ".data) [] ?_
      simp [String.data_append, List.append_assoc]
  · intro fe te h1 h2
    unfold convert_weight
    rw [h1, h2]

/-- Witness for the invalid-unit theorem at concrete inputs: "stone" is not a
volume unit and triggers the error; "cup" to "ml" succeeds. -/
theorem invalid_unit_error_behavior_witness :
    convert_volume 2 "stone" "ml" =
      .error ("Invalid volume units: " ++ "stone" ++ " or " ++ "ml") ∧
    convert_volume 2 "cup" "ml" = .ok
      { original_quantity := 2
        original_unit := "cup"
        converted_quantity :=
          smart_round (2 * volume_conversions .cup / volume_conversions .ml) "ml"
        converted_unit := "ml"
        conversion_factor := volume_conversions .cup / volume_conversions .ml } :=
  ⟨((invalid_unit_error_behavior 2 "stone" "ml").1 (Or.inl (by decide))).1,
   (invalid_unit_error_behavior 2 "cup" "ml").2.1 .cup .ml (by decide) (by decide)⟩

/-- C10: `volume_to_weight` and `weight_to_volume` return `None` (not an
exception) when the unit string is unrecognized, exactly as when no density is
found for the ingredient name — unlike `convert_volume`/`convert_weight`,
which raise for unknown units. -/
theorem density_conversion_returns_none : ∀ (q : ℚ) (u n : String),
    (VolumeUnit.ofString (strLower u) = none → volume_to_weight q u n = none) ∧
    (find_ingredient_key n = none → volume_to_weight q u n = none) ∧
    (WeightUnit.ofString (strLower u) = none → weight_to_volume q u n = none) ∧
    (find_ingredient_key n = none → weight_to_volume q u n = none) ∧
    (VolumeUnit.ofString (strLower u) = none →
      convert_volume q u u = .error ("Invalid volume units: " ++ u ++ " or " ++ u)) ∧
    (WeightUnit.ofString (strLower u) = none →
      convert_weight q u u = .error ("Invalid weight units: " ++ u ++ " or " ++ u)) := by
  intro q u n
  refine ⟨?_, ?_, ?_, ?_, ?_, ?_⟩
  · intro h
    cases hk : find_ingredient_key n with
    | none => simp only [volume_to_weight, hk]
    | some k =>
      cases hd : densityOfKey k with
      | none => simp only [volume_to_weight, hk, hd]
      | some d => simp only [volume_to_weight, hk, hd, h]
  · intro h
    simp only [volume_to_weight, h]
  · intro h
    cases hk : find_ingredient_key n with
    | none => simp only [weight_to_volume, hk]
    | some k =>
      cases hd : densityOfKey k with
      | none => simp only [weight_to_volume, hk, hd]
      | some d => simp only [weight_to_volume, hk, hd, h]
  · intro h
    simp only [weight_to_volume, h]
  · intro h
    exact convert_volume_invalid q u u (Or.inl h)
  · intro h
    exact convert_weight_invalid q u u (Or.inl h)

/-- Witness for the None-returning theorem: an unknown unit "stone" and an
unknown ingredient "unobtainium" both yield `None`, while `convert_volume`
raises on "stone". -/
theorem density_conversion_returns_none_witness :
    volume_to_weight 3 "stone" "flour" = none ∧
    volume_to_weight 3 "cup" "unobtainium" = none ∧
    convert_volume 3 "stone" "stone" =
      .error ("Invalid volume units: " ++ "stone" ++ " or " ++ "stone") :=
  ⟨(density_conversion_returns_none 3 "stone" "flour").1 (by decide),
   (density_conversion_returns_none 3 "cup" "unobtainium").2.1 (by decide),
   (density_conversion_returns_none 3 "stone" "flour").2.2.2.2.1 (by decide)⟩

/-- Every volume conversion factor is positive. -/
theorem volume_conversions_pos (u : VolumeUnit) : 0 < volume_conversions u := by
  cases u <;> norm_num [volume_conversions]

/-- Every weight conversion factor is positive. -/
theorem weight_conversions_pos (u : WeightUnit) : 0 < weight_conversions u := by
  cases u <;> norm_num [weight_conversions]

/-- `convert_temperature` from Fahrenheit to Celsius applies the formula and
rounds to one decimal. -/
theorem convert_temperature_F_C (v : ℚ) : convert_temperature v "F" "C" = .ok
    { original_quantity := v
      original_unit := "F"
      converted_quantity := pyRound 1 ((v - 32) * 5/9)
      converted_unit := "C"
      conversion_factor := 0 } := by
  have h1 : strUpper "F" = "F" := by decide
  have h2 : strUpper "C" = "C" := by decide
  have h3 : (("F" : String) = "C") = False := by decide
  simp only [convert_temperature, h1, h2, h3, if_false]
  simp

/-- `convert_temperature` from Celsius to Fahrenheit applies the formula and
rounds to one decimal. -/
theorem convert_temperature_C_F (v : ℚ) : convert_temperature v "C" "F" = .ok
    { original_quantity := v
      original_unit := "C"
      converted_quantity := pyRound 1 (v * 9/5 + 32)
      converted_unit := "F"
      conversion_factor := 0 } := by
  have h1 : strUpper "F" = "F" := by decide
  have h2 : strUpper "C" = "C" := by decide
  have h3 : (("C" : String) = "F") = False := by decide
  simp only [convert_temperature, h1, h2, h3, if_false]
  simp

/-- C2 counterexample: the temperature round trip is not exact. Starting from
350 °F, converting to Celsius gives 176.7 °C, and converting back gives
350.1 °F, not 350. -/
theorem temperature_roundtrip_not_exact :
    (convert_temperature 350 "F" "C").map ConversionResult.converted_quantity
      = .ok (1767/10) ∧
    (convert_temperature (1767/10) "C" "F").map ConversionResult.converted_quantity
      = .ok (3501/10) ∧
    (3501/10 : ℚ) ≠ 350 := by
  refine ⟨?_, ?_, by norm_num⟩
  · rw [convert_temperature_F_C]
    simp only [Except.map]
    norm_num [pyRound, roundHalfEven]
  · rw [convert_temperature_C_F]
    simp only [Except.map]
    norm_num [pyRound, roundHalfEven]

/-- C2 (amended): same-family round trips return the original value to within
the smart-rounding tolerance `(factor u2 / factor u1)/2 + 1/2`, and the
temperature round trip returns the original value to within `7/50` (the two
one-decimal roundings), though not exactly. -/
theorem roundtrip_within_tolerance :
    (∀ (u1 u2 : VolumeUnit) (v : ℚ), 0 < v →
      ∀ r1 r2, convert_volume v u1.str u2.str = .ok r1 →
        convert_volume r1.converted_quantity u2.str u1.str = .ok r2 →
        |r2.converted_quantity - v| ≤
          (volume_conversions u2 / volume_conversions u1) / 2 + 1/2) ∧
    (∀ (u1 u2 : WeightUnit) (v : ℚ), 0 < v →
      ∀ r1 r2, convert_weight v u1.str u2.str = .ok r1 →
        convert_weight r1.converted_quantity u2.str u1.str = .ok r2 →
        |r2.converted_quantity - v| ≤
          (weight_conversions u2 / weight_conversions u1) / 2 + 1/2) ∧
    (∀ (v : ℚ) (r1 r2 : ConversionResult),
      convert_temperature v "F" "C" = .ok r1 →
      convert_temperature r1.converted_quantity "C" "F" = .ok r2 →
      |r2.converted_quantity - v| ≤ 7/50) ∧
    (∀ (v : ℚ) (r1 r2 : ConversionResult),
      convert_temperature v "C" "F" = .ok r1 →
      convert_temperature r1.converted_quantity "F" "C" = .ok r2 →
      |r2.converted_quantity - v| ≤ 7/50) := by
  refine ⟨?_, ?_, ?_, ?_⟩
  · intro u1 u2 v _ r1 r2 h1 h2
    have hf1 := volume_conversions_pos u1
    have hf2 := volume_conversions_pos u2
    rw [convert_volume_str] at h1
    obtain rfl := Except.ok.inj h1
    rw [convert_volume_str] at h2
    obtain rfl := Except.ok.inj h2
    show |smart_round (smart_round (v * volume_conversions u1 / volume_conversions u2)
        u2.str * volume_conversions u2 / volume_conversions u1) u1.str - v| ≤ _
    set x := v * volume_conversions u1 / volume_conversions u2 with hx
    set s1 := smart_round x u2.str with hs1
    set y := s1 * volume_conversions u2 / volume_conversions u1 with hy
    have he1 : |s1 - x| ≤ 1/2 := abs_smart_round_sub_le x u2.str
    have he2 : |smart_round y u1.str - y| ≤ 1/2 := abs_smart_round_sub_le y u1.str
    have hyv : y - v = (s1 - x) * (volume_conversions u2 / volume_conversions u1) := by
      rw [hy, hx]
      field_simp
      ring
    have habs : |y - v| ≤ 1/2 * (volume_conversions u2 / volume_conversions u1) := by
      rw [hyv, abs_mul, abs_of_pos (div_pos hf2 hf1)]
      exact mul_le_mul_of_nonneg_right he1 (le_of_lt (div_pos hf2 hf1))
    calc |smart_round y u1.str - v|
        = |(smart_round y u1.str - y) + (y - v)| := by ring_nf
      _ ≤ |smart_round y u1.str - y| + |y - v| := abs_add _ _
      _ ≤ 1/2 + 1/2 * (volume_conversions u2 / volume_conversions u1) := by
          exact add_le_add he2 habs
      _ ≤ (volume_conversions u2 / volume_conversions u1) / 2 + 1/2 := by linarith
  · intro u1 u2 v _ r1 r2 h1 h2
    have hf1 := weight_conversions_pos u1
    have hf2 := weight_conversions_pos u2
    rw [convert_weight_str] at h1
    obtain rfl := Except.ok.inj h1
    rw [convert_weight_str] at h2
    obtain rfl := Except.ok.inj h2
    show |smart_round (smart_round (v * weight_conversions u1 / weight_conversions u2)
        u2.str * weight_conversions u2 / weight_conversions u1) u1.str - v| ≤ _
    set x := v * weight_conversions u1 / weight_conversions u2 with hx
    set s1 := smart_round x u2.str with hs1
    set y := s1 * weight_conversions u2 / weight_conversions u1 with hy
    have he1 : |s1 - x| ≤ 1/2 := abs_smart_round_sub_le x u2.str
    have he2 : |smart_round y u1.str - y| ≤ 1/2 := abs_smart_round_sub_le y u1.str
    have hyv : y - v = (s1 - x) * (weight_conversions u2 / weight_conversions u1) := by
      rw [hy, hx]
      field_simp
      ring
    have habs : |y - v| ≤ 1/2 * (weight_conversions u2 / weight_conversions u1) := by
      rw [hyv, abs_mul, abs_of_pos (div_pos hf2 hf1)]
      exact mul_le_mul_of_nonneg_right he1 (le_of_lt (div_pos hf2 hf1))
    calc |smart_round y u1.str - v|
        = |(smart_round y u1.str - y) + (y - v)| := by ring_nf
      _ ≤ |smart_round y u1.str - y| + |y - v| := abs_add _ _
      _ ≤ 1/2 + 1/2 * (weight_conversions u2 / weight_conversions u1) := by
          exact add_le_add he2 habs
      _ ≤ (weight_conversions u2 / weight_conversions u1) / 2 + 1/2 := by linarith
  · intro v r1 r2 h1 h2
    rw [convert_temperature_F_C] at h1
    obtain rfl := Except.ok.inj h1
    rw [convert_temperature_C_F] at h2
    obtain rfl := Except.ok.inj h2
    show |pyRound 1 (pyRound 1 ((v - 32) * 5/9) * 9/5 + 32) - v| ≤ 7/50
    set c := pyRound 1 ((v - 32) * 5/9) with hc
    set y := c * 9/5 + 32 with hy
    have he1 : |c - (v - 32) * 5/9| ≤ 1/20 := by
      have := abs_pyRound_sub_le 1 ((v - 32) * 5/9)
      norm_num at this
      convert this using 2
    have he2 : |pyRound 1 y - y| ≤ 1/20 := by
      have := abs_pyRound_sub_le 1 y
      norm_num at this
      convert this using 2
    have hyv : y - v = (c - (v - 32) * 5/9) * (9/5) := by rw [hy]; ring
    have habs : |y - v| ≤ 1/20 * (9/5) := by
      rw [hyv, abs_mul]
      have h95 : |(9/5 : ℚ)| = 9/5 := by norm_num
      rw [h95]
      exact mul_le_mul_of_nonneg_right he1 (by norm_num)
    calc |pyRound 1 y - v| = |(pyRound 1 y - y) + (y - v)| := by ring_nf
      _ ≤ |pyRound 1 y - y| + |y - v| := abs_add _ _
      _ ≤ 1/20 + 1/20 * (9/5) := add_le_add he2 habs
      _ ≤ 7/50 := by norm_num
  · intro v r1 r2 h1 h2
    rw [convert_temperature_C_F] at h1
    obtain rfl := Except.ok.inj h1
    rw [convert_temperature_F_C] at h2
    obtain rfl := Except.ok.inj h2
    show |pyRound 1 ((pyRound 1 (v * 9/5 + 32) - 32) * 5/9) - v| ≤ 7/50
    set f := pyRound 1 (v * 9/5 + 32) with hf
    set y := (f - 32) * 5/9 with hy
    have he1 : |f - (v * 9/5 + 32)| ≤ 1/20 := by
      have := abs_pyRound_sub_le 1 (v * 9/5 + 32)
      norm_num at this
      convert this using 2
    have he2 : |pyRound 1 y - y| ≤ 1/20 := by
      have := abs_pyRound_sub_le 1 y
      norm_num at this
      convert this using 2
    have hyv : y - v = (f - (v * 9/5 + 32)) * (5/9) := by rw [hy]; ring
    have habs : |y - v| ≤ 1/20 * (5/9) := by
      rw [hyv, abs_mul]
      have h59 : |(5/9 : ℚ)| = 5/9 := by norm_num
      rw [h59]
      exact mul_le_mul_of_nonneg_right he1 (by norm_num)
    calc |pyRound 1 y - v| = |(pyRound 1 y - y) + (y - v)| := by ring_nf
      _ ≤ |pyRound 1 y - y| + |y - v| := abs_add _ _
      _ ≤ 1/20 + 1/20 * (5/9) := add_le_add he2 habs
      _ ≤ 7/50 := by norm_num

/-- Witness for the round-trip tolerance theorem at 1 cup → 237 ml → cups. -/
theorem roundtrip_within_tolerance_witness :
    |smart_round ((237:ℚ) * volume_conversions .ml / volume_conversions .cup) "cup" - 1| ≤
      (volume_conversions VolumeUnit.ml / volume_conversions VolumeUnit.cup) / 2 + 1/2 := by
  have h1 : convert_volume 1 VolumeUnit.cup.str VolumeUnit.ml.str = .ok cupMlResult :=
    convert_volume_cup_ml
  have h2 := convert_volume_str cupMlResult.converted_quantity VolumeUnit.ml VolumeUnit.cup
  have h := roundtrip_within_tolerance.1 VolumeUnit.cup VolumeUnit.ml 1 (by norm_num)
    cupMlResult _ h1 h2
  simpa [cupMlResult] using h

/-- `Ingredient` pydantic model of `models/recipe.py` (fields used by the
converter and scorer). -/
structure Ingredient where
  name : String
  quantity : Option ℚ := none
  unit : Option String := none
  preparation : Option String := none
  notes : Option String := none
  metric_quantity : Option ℚ := none
  metric_unit : Option String := none
  imperial_quantity : Option ℚ := none
  imperial_unit : Option String := none
  weight_quantity : Option ℚ := none
  weight_unit : Option String := none
  original_text : String := ""
  confidence : Option ℚ := none
deriving DecidableEq, Repr

/-- `InstructionStep` pydantic model of `models/recipe.py`.  `temperature` is
modelled as a rational since the converter assigns converted floats to it. -/
structure InstructionStep where
  step_number : ℤ
  instruction : String
  time_minutes : Option ℤ := none
  temperature : Option ℚ := none
  temperature_unit : String := "F"
  equipment : List String := []
  notes : Option String := none
deriving DecidableEq, Repr

/-- `Recipe` pydantic model of `models/recipe.py` (fields used by the
converter and scorer; `difficulty`/`cuisine` carry their enum string values). -/
structure Recipe where
  title : String
  description : Option String := none
  prep_time : Option ℤ := none
  cook_time : Option ℤ := none
  servings : Option ℤ := none
  difficulty : Option String := none
  cuisine : Option String := none
  ingredients : List Ingredient := []
  instructions : List InstructionStep := []
  processing_notes : List String := []
  confidence_score : Option ℚ := none
deriving DecidableEq, Repr

/-- Python truthiness of an optional string: present and non-empty. -/
def optStrTruthy : Option String → Bool
  | none => false
  | some s => !s.isEmpty

/-- Python truthiness of an optional integer: present and non-zero. -/
def optIntTruthy : Option ℤ → Bool
  | none => false
  | some n => decide (n ≠ 0)

/-- Python truthiness of an optional float: present and non-zero. -/
def optRatTruthy : Option ℚ → Bool
  | none => false
  | some q => decide (q ≠ 0)

/-- Per-ingredient contribution in `_calculate_quality_score`. -/
def ingredientItemScore (ing : Ingredient) : ℚ :=
  (if ing.name ≠ "" ∧ ing.name.length > 2 then 1/2 else 0) +
  (if ing.quantity.isSome then 3/10 else 0) +
  (if optStrTruthy ing.unit then 1/5 else 0)

/-- Per-instruction contribution in `_calculate_quality_score`. -/
def instructionItemScore (ins : InstructionStep) : ℚ :=
  (if ins.instruction ≠ "" ∧ ins.instruction.length > 10 then 7/10 else 0) +
  (if optIntTruthy ins.time_minutes then 1/5 else 0) +
  (if ins.equipment ≠ [] then 1/10 else 0)

/-- `NormalizerAgent._calculate_quality_score` of `src/agents/normalizer.py`. -/
def calculate_quality_score (recipe : Recipe) : ℚ :=
  let titleScore : ℚ :=
    if recipe.title ≠ "" ∧ recipe.title.length > 5 then 1/10 else 0
  let descriptionScore : ℚ :=
    match recipe.description with
    | some d => if d ≠ "" ∧ d.length > 20 then 1/10 else 0
    | none => 0
  let ingredientsScore : ℚ :=
    if recipe.ingredients ≠ [] then
      min ((recipe.ingredients.map ingredientItemScore).sum /
        recipe.ingredients.length) 1 * (3/10)
    else 0
  let instructionsScore : ℚ :=
    if recipe.instructions ≠ [] then
      min ((recipe.instructions.map instructionItemScore).sum /
        recipe.instructions.length) 1 * (3/10)
    else 0
  let metadataScore : ℚ :=
    ((if optIntTruthy recipe.prep_time then (1/5:ℚ) else 0) +
     (if optIntTruthy recipe.cook_time then (1/5:ℚ) else 0) +
     (if optIntTruthy recipe.servings then (1/5:ℚ) else 0) +
     (if optStrTruthy recipe.difficulty then (1/5:ℚ) else 0) +
     (if optStrTruthy recipe.cuisine then (1/5:ℚ) else 0)) * (1/5)
  min (titleScore + descriptionScore + ingredientsScore + instructionsScore +
    metadataScore) 1

/-- Each per-ingredient contribution lies in `[0, 1]`. -/
theorem ingredientItemScore_bounds (ing : Ingredient) :
    0 ≤ ingredientItemScore ing ∧ ingredientItemScore ing ≤ 1 := by
  unfold ingredientItemScore
  split_ifs <;> norm_num

/-- Each per-instruction contribution lies in `[0, 1]`. -/
theorem instructionItemScore_bounds (ins : InstructionStep) :
    0 ≤ instructionItemScore ins ∧ instructionItemScore ins ≤ 1 := by
  unfold instructionItemScore
  split_ifs <;> norm_num

/-- Summing a constant-one map gives the length. -/
theorem sum_map_eq_length {α} (l : List α) (f : α → ℚ) (h : ∀ x ∈ l, f x = 1) :
    (l.map f).sum = l.length := by
  induction l with
  | nil => simp
  | cons a t ih =>
    simp only [List.map_cons, List.sum_cons, List.length_cons]
    rw [h a (by simp), ih (fun x hx => h x (by simp [hx]))]
    push_cast
    ring

/-- A string longer than two characters is not empty. -/
theorem ne_empty_of_two_lt_length {s : String} (h : 2 < s.length) : s ≠ "" := by
  intro he
  rw [he] at h
  exact absurd h (by decide)

/-- A string longer than ten characters is not empty. -/
theorem ne_empty_of_ten_lt_length {s : String} (h : 10 < s.length) : s ≠ "" := by
  intro he
  rw [he] at h
  exact absurd h (by decide)

/-- C5: the quality score always lies in `[0, 1]`; a recipe with no title, no
description, no ingredients, no instructions and no metadata scores exactly 0;
a recipe with a long title and description, only well-formed ingredients and
instructions (nonempty lists), and all five metadata fields scores exactly 1. -/
theorem quality_score_bounds :
    (∀ r : Recipe, 0 ≤ calculate_quality_score r ∧ calculate_quality_score r ≤ 1) ∧
    (calculate_quality_score { title := "" } = 0) ∧
    (∀ r : Recipe,
      r.title ≠ "" → 5 < r.title.length →
      (∃ d, r.description = some d ∧ d ≠ "" ∧ 20 < d.length) →
      r.ingredients ≠ [] →
      (∀ ing ∈ r.ingredients,
        2 < ing.name.length ∧ ing.quantity.isSome ∧ optStrTruthy ing.unit) →
      r.instructions ≠ [] →
      (∀ ins ∈ r.instructions,
        10 < ins.instruction.length ∧ optIntTruthy ins.time_minutes ∧
          ins.equipment ≠ []) →
      optIntTruthy r.prep_time → optIntTruthy r.cook_time →
      optIntTruthy r.servings → optStrTruthy r.difficulty →
      optStrTruthy r.cuisine →
      calculate_quality_score r = 1) := by
  refine ⟨?_, ?_, ?_⟩
  · intro r
    simp only [calculate_quality_score]
    refine ⟨le_min ?_ (by norm_num), min_le_right _ _⟩
    have hIngSum : (0:ℚ) ≤ (r.ingredients.map ingredientItemScore).sum := by
      apply List.sum_nonneg
      intro x hx
      obtain ⟨i, _, rfl⟩ := List.mem_map.mp hx
      exact (ingredientItemScore_bounds i).1
    have hInsSum : (0:ℚ) ≤ (r.instructions.map instructionItemScore).sum := by
      apply List.sum_nonneg
      intro x hx
      obtain ⟨i, _, rfl⟩ := List.mem_map.mp hx
      exact (instructionItemScore_bounds i).1
    apply add_nonneg
    apply add_nonneg
    apply add_nonneg
    apply add_nonneg
    · split_ifs <;> norm_num
    · cases hd : r.description with
      | none => norm_num
      | some d =>
        show (0:ℚ) ≤ if d ≠ "" ∧ d.length > 20 then (1/10:ℚ) else 0
        split_ifs <;> norm_num
    · split_ifs with h
      · apply mul_nonneg _ (by norm_num)
        exact le_min (div_nonneg hIngSum (Nat.cast_nonneg _)) (by norm_num)
      · exact le_refl 0
    · split_ifs with h
      · apply mul_nonneg _ (by norm_num)
        exact le_min (div_nonneg hInsSum (Nat.cast_nonneg _)) (by norm_num)
      · exact le_refl 0
    · apply mul_nonneg _ (by norm_num)
      apply add_nonneg
      apply add_nonneg
      apply add_nonneg
      apply add_nonneg
      all_goals split_ifs <;> norm_num
  · simp [calculate_quality_score, optIntTruthy, optStrTruthy]
  · intro r ht hlen hd hingne hing hinsne hins hp hc hs hdif hcui
    obtain ⟨d, hd1, hd2, hd3⟩ := hd
    have hTitle : (if r.title ≠ "" ∧ 5 < r.title.length then (1/10:ℚ) else 0) = 1/10 :=
      if_pos ⟨ht, hlen⟩
    have hDesc : (match r.description with
        | some d => if d ≠ "" ∧ 20 < d.length then (1/10:ℚ) else 0
        | none => 0) = 1/10 := by
      rw [hd1]
      exact if_pos ⟨hd2, hd3⟩
    have hIngOne : ∀ i ∈ r.ingredients, ingredientItemScore i = 1 := by
      intro i hi
      obtain ⟨h1, h2, h3⟩ := hing i hi
      unfold ingredientItemScore
      rw [if_pos ⟨ne_empty_of_two_lt_length h1, h1⟩, if_pos h2, if_pos h3]
      norm_num
    have hInsOne : ∀ i ∈ r.instructions, instructionItemScore i = 1 := by
      intro i hi
      obtain ⟨h1, h2, h3⟩ := hins i hi
      unfold instructionItemScore
      rw [if_pos ⟨ne_empty_of_ten_lt_length h1, h1⟩, if_pos h2, if_pos h3]
      norm_num
    have hIngLen : (0:ℚ) < r.ingredients.length := by
      have : 0 < r.ingredients.length := List.length_pos.mpr hingne
      exact_mod_cast this
    have hInsLen : (0:ℚ) < r.instructions.length := by
      have : 0 < r.instructions.length := List.length_pos.mpr hinsne
      exact_mod_cast this
    have hIng : (if r.ingredients ≠ [] then
        min ((r.ingredients.map ingredientItemScore).sum /
          r.ingredients.length) 1 * (3/10) else 0) = 3/10 := by
      rw [if_pos hingne, sum_map_eq_length _ _ hIngOne,
        div_self (ne_of_gt hIngLen), min_self]
      norm_num
    have hIns : (if r.instructions ≠ [] then
        min ((r.instructions.map instructionItemScore).sum /
          r.instructions.length) 1 * (3/10) else 0) = 3/10 := by
      rw [if_pos hinsne, sum_map_eq_length _ _ hInsOne,
        div_self (ne_of_gt hInsLen), min_self]
      norm_num
    simp only [calculate_quality_score]
    rw [hTitle, hDesc, hIng, hIns, if_pos hp, if_pos hc, if_pos hs, if_pos hdif,
      if_pos hcui]
    norm_num

/-- A concrete fully-populated recipe. -/
def fullRecipe : Recipe :=
  { title := "Pancakes"
    description := some "Fluffy breakfast pancakes for two."
    prep_time := some 10
    cook_time := some 15
    servings := some 4
    difficulty := some "easy"
    cuisine := some "american"
    ingredients :=
      [{ name := "flour", quantity := some 2, unit := some "cup" },
       { name := "milk", quantity := some (3/2), unit := some "cup" }]
    instructions :=
      [{ step_number := 1
         instruction := "Mix all the dry ingredients"
         time_minutes := some 5
         equipment := ["bowl"] }] }

/-- Witness for the quality-score theorem: the concrete full recipe scores 1. -/
theorem quality_score_bounds_witness : calculate_quality_score fullRecipe = 1 := by
  apply quality_score_bounds.2.2 fullRecipe
  · decide
  · decide
  · exact ⟨_, rfl, by decide, by decide⟩
  · decide
  · decide
  · decide
  · decide
  · decide
  · decide
  · decide
  · decide
  · decide

/-- `ConverterAgent._convert_to_metric` of `agents/converter.py`.  A raised
exception from a nested converter call is modelled as `none`, matching the
per-ingredient `except` in `_convert_ingredient` (those branches are anyway
unreachable: the guarded units always parse). -/
def convert_to_metric (ingredient : Ingredient) : Option ConversionResult :=
  match ingredient.quantity, ingredient.unit with
  | some q, some u0 =>
    if q = 0 ∨ u0 = "" then none
    else
      let unit := strLower u0
      if unit ∈ (["cup", "tbsp", "tsp", "fl oz", "pint", "quart", "gallon"] : List String) then
        match convert_volume q unit "ml" with
        | .ok result =>
          if result.converted_quantity ≥ 1000 then (convert_volume q unit "l").toOption
          else some result
        | .error _ => none
      else if unit ∈ (["oz", "lb"] : List String) then
        match convert_weight q unit "g" with
        | .ok result =>
          if result.converted_quantity ≥ 1000 then (convert_weight q unit "kg").toOption
          else some result
        | .error _ => none
      else if unit ∈ (["cup", "tbsp", "tsp"] : List String) ∧ ingredient.name ≠ "" then
        match volume_to_weight q unit ingredient.name with
        | some result =>
          if result.converted_quantity ≥ 1000 then
            match convert_weight result.converted_quantity "g" "kg" with
            | .ok kg_result => some { result with
                converted_quantity := kg_result.converted_quantity
                converted_unit := "kg" }
            | .error _ => none
          else some result
        | none => none
      else none
  | _, _ => none

/-- `ConverterAgent._convert_to_imperial` of `agents/converter.py`. -/
def convert_to_imperial (ingredient : Ingredient) : Option ConversionResult :=
  match ingredient.quantity, ingredient.unit with
  | some q, some u0 =>
    if q = 0 ∨ u0 = "" then none
    else
      let unit := strLower u0
      if unit ∈ (["ml", "l"] : List String) then
        if unit = "ml" then
          if q ≤ 15 then (convert_volume q unit "tsp").toOption
          else if q ≤ 60 then (convert_volume q unit "tbsp").toOption
          else (convert_volume q unit "cup").toOption
        else (convert_volume q unit "cup").toOption
      else if unit ∈ (["g", "kg"] : List String) then
        if unit = "g" ∧ q < 454 then (convert_weight q unit "oz").toOption
        else (convert_weight q unit "lb").toOption
      else if unit ∈ (["g", "kg"] : List String) ∧ ingredient.name ≠ "" then
        match weight_to_volume q unit ingredient.name with
        | some result =>
          if result.converted_unit = "ml" then
            let imperial_result :=
              if result.converted_quantity ≤ 15 then
                (convert_volume result.converted_quantity "ml" "tsp").toOption
              else if result.converted_quantity ≤ 60 then
                (convert_volume result.converted_quantity "ml" "tbsp").toOption
              else (convert_volume result.converted_quantity "ml" "cup").toOption
            match imperial_result with
            | some ir => some { result with
                converted_quantity := ir.converted_quantity
                converted_unit := ir.converted_unit }
            | none => none
          else none
        | none => none
      else none
  | _, _ => none

/-- `ConverterAgent._convert_to_weight` of `agents/converter.py`. -/
def convert_to_weight (ingredient : Ingredient) : Option ConversionResult :=
  match ingredient.quantity, ingredient.unit with
  | some q, some u0 =>
    if q = 0 ∨ u0 = "" ∨ ingredient.name = "" then none
    else
      let unit := strLower u0
      if unit ∈ (["cup", "tbsp", "tsp", "ml", "l", "fl oz"] : List String) then
        match volume_to_weight q unit ingredient.name with
        | some result =>
          if result.converted_quantity ≥ 1000 then
            match convert_weight result.converted_quantity "g" "kg" with
            | .ok kg_result => some { result with
                converted_quantity := kg_result.converted_quantity
                converted_unit := "kg" }
            | .error _ => none
          else some result
        | none => none
      else if unit ∈ (["oz", "lb"] : List String) then
        if unit = "oz" ∧ q ≥ 16 then (convert_weight q unit "lb").toOption
        else if unit = "lb" then (convert_weight q unit "kg").toOption
        else none
      else none
  | _, _ => none

/-- `ConverterAgent._apply_conversion_to_ingredient`: deep-copies the
ingredient and populates the primary and parallel quantity/unit fields. -/
def apply_conversion_to_ingredient (ingredient : Ingredient)
    (conversion : ConversionResult) : Ingredient :=
  let imperialUnits : List String := ["cup", "tbsp", "tsp", "oz", "lb"]
  let weightUnits : List String := ["g", "kg", "oz", "lb"]
  let isMetric := strContains conversion.converted_unit "metric"
  { ingredient with
    quantity := some conversion.converted_quantity
    unit := some conversion.converted_unit
    metric_quantity := if isMetric then some conversion.converted_quantity else none
    metric_unit := if isMetric then some conversion.converted_unit else none
    imperial_quantity :=
      if conversion.converted_unit ∈ imperialUnits then
        some conversion.converted_quantity else none
    imperial_unit :=
      if conversion.converted_unit ∈ imperialUnits then
        some conversion.converted_unit else none
    weight_quantity :=
      if conversion.converted_unit ∈ weightUnits then
        some conversion.converted_quantity else none
    weight_unit :=
      if conversion.converted_unit ∈ weightUnits then
        some conversion.converted_unit else none
    notes :=
      if conversion.is_approximation then
        some ("Converted from " ++ toString conversion.original_quantity ++ " "
          ++ conversion.original_unit ++
          (match conversion.notes with
           | some n => " (" ++ n ++ ")"
           | none => ""))
      else ingredient.notes }

/-- Key of the agent's `conversion_cache`, modelled as the tuple the Python
f-string interpolates. -/
abbrev CacheKey := Option ℚ × Option String × String × String

/-- The agent's `conversion_cache` as an association list in insertion order. -/
abbrev ConversionCache := List (CacheKey × ConversionResult)

/-- `IngredientConversionResult` of `agents/converter.py`. -/
structure IngredientConversionResult where
  ingredient : Ingredient
  conversion_result : ConversionResult
  is_approximation : Bool
deriving DecidableEq, Repr

/-- `ConverterAgent._convert_ingredient`: cache lookup, dispatch on the target
system, cache store; per-ingredient exceptions yield `none`. -/
def convert_ingredient (cache : ConversionCache) (ingredient : Ingredient)
    (target_system : String) :
    Option IngredientConversionResult × ConversionCache :=
  let cache_key : CacheKey :=
    (ingredient.quantity, ingredient.unit, ingredient.name, target_system)
  match cache.find? (fun p => p.1 == cache_key) with
  | some p =>
    (some { ingredient := apply_conversion_to_ingredient ingredient p.2
            conversion_result := p.2
            is_approximation := p.2.is_approximation }, cache)
  | none =>
    let conversion_result :=
      if target_system = "metric" then convert_to_metric ingredient
      else if target_system = "imperial" then convert_to_imperial ingredient
      else if target_system = "weight" then convert_to_weight ingredient
      else none
    match conversion_result with
    | some cr =>
      (some { ingredient := apply_conversion_to_ingredient ingredient cr
              conversion_result := cr
              is_approximation := cr.is_approximation },
       cache ++ [(cache_key, cr)])
    | none => (none, cache)

/-- The per-ingredient loop of `ConverterAgent.convert`: ingredients with a
non-`None` quantity and truthy unit are converted in place on the copy;
failures leave the ingredient unchanged. -/
def convertIngredientsLoop (target_system : String) :
    List Ingredient → ConversionCache →
    List Ingredient × ConversionCache × List IngredientConversionResult
  | [], cache => ([], cache, [])
  | ing :: rest, cache =>
    if ing.quantity.isSome ∧ optStrTruthy ing.unit then
      match convert_ingredient cache ing target_system with
      | (some res, cache1) =>
        let out := convertIngredientsLoop target_system rest cache1
        (res.ingredient :: out.1, out.2.1, res :: out.2.2)
      | (none, cache1) =>
        let out := convertIngredientsLoop target_system rest cache1
        (ing :: out.1, out.2.1, out.2.2)
    else
      let out := convertIngredientsLoop target_system rest cache
      (ing :: out.1, out.2.1, out.2.2)

/-- `ConverterAgent._convert_instruction_temperatures`: converts F↔C in place
on the copy's instructions for truthy temperatures. -/
def convert_instruction_temperatures (target_system : String)
    (instructions : List InstructionStep) : List InstructionStep :=
  instructions.map fun instruction =>
    match instruction.temperature with
    | some t =>
      if t ≠ 0 then
        if target_system = "metric" ∧ instruction.temperature_unit = "F" then
          match convert_temperature t "F" "C" with
          | .ok celsius => { instruction with
              temperature := some celsius.converted_quantity
              temperature_unit := "C" }
          | .error _ => instruction
        else if target_system = "imperial" ∧ instruction.temperature_unit = "C" then
          match convert_temperature t "C" "F" with
          | .ok fahrenheit => { instruction with
              temperature := some fahrenheit.converted_quantity
              temperature_unit := "F" }
          | .error _ => instruction
        else instruction
      else instruction
    | none => instruction

/-- The settings surface read by `_determine_preferred_system`. -/
structure Settings where
  preferred_measurement_system : Option String := none
  preferred_volume_unit : String := "ml"
deriving DecidableEq, Repr

/-- `ConverterAgent._determine_preferred_system`. -/
def determine_preferred_system (settings : Settings) : String :=
  match settings.preferred_measurement_system with
  | some s => s
  | none =>
    if settings.preferred_volume_unit ∈ (["ml", "l"] : List String) then "metric"
    else if settings.preferred_volume_unit ∈ (["cup", "tbsp", "tsp"] : List String) then
      "imperial"
    else "metric"

/-- Value-level body of `ConverterAgent.convert`, operating on the deep copy:
returns the converted recipe, the updated agent cache, and the conversion
counts reported in the result metadata. -/
def convertRecipe (cache : ConversionCache) (settings : Settings)
    (recipe : Recipe) (target_system : String) :
    Recipe × ConversionCache × ℕ × ℕ :=
  let target :=
    if target_system = "preferred" then determine_preferred_system settings
    else target_system
  let out := convertIngredientsLoop target recipe.ingredients cache
  let approx := (out.2.2.filter (fun r => r.is_approximation)).length
  let notes1 := recipe.processing_notes ++
    ["Units converted to " ++ target ++ " system"]
  let notes2 :=
    if out.2.2 ≠ [] ∧ approx > 0 then
      notes1 ++ [toString approx ++ " conversions are approximations"]
    else notes1
  ({ recipe with
      ingredients := out.1
      instructions := convert_instruction_temperatures target recipe.instructions
      processing_notes := notes2 },
   out.2.1, out.2.2.length, approx)

/-- `ConverterAgent.convert` at the object level: the input recipe lives in a
store of recipe objects; `recipe.copy(deep=True)` allocates a fresh slot, and
every mutation of the conversion targets that fresh slot only. Returns the new
store, the reference to the converted recipe, and the updated cache. -/
def convert_on_store (store : List Recipe) (ref : ℕ) (cache : ConversionCache)
    (settings : Settings) (target_system : String) :
    List Recipe × Option ℕ × ConversionCache :=
  match store[ref]? with
  | none => (store, none, cache)
  | some recipe =>
    let out := convertRecipe cache settings recipe target_system
    (store ++ [out.1], some store.length, out.2.1)

/-- Evaluation of `_convert_to_metric` on an imperial-volume-unit ingredient:
convert to ml, and restate in liters when the rounded ml amount reaches 1000. -/
theorem convert_to_metric_volume_eq (q : ℚ) (name : String) (u : VolumeUnit)
    (hq : q ≠ 0)
    (hmem : u.str ∈
      (["cup", "tbsp", "tsp", "fl oz", "pint", "quart", "gallon"] : List String)) :
    convert_to_metric { name := name, quantity := some q, unit := some u.str } =
      if smart_round (q * volume_conversions u / volume_conversions VolumeUnit.ml)
          "ml" ≥ 1000 then
        some { original_quantity := q
               original_unit := u.str
               converted_quantity :=
                 smart_round (q * volume_conversions u / volume_conversions VolumeUnit.l) "l"
               converted_unit := "l"
               conversion_factor := volume_conversions u / volume_conversions VolumeUnit.l }
      else
        some { original_quantity := q
               original_unit := u.str
               converted_quantity :=
                 smart_round (q * volume_conversions u / volume_conversions VolumeUnit.ml) "ml"
               converted_unit := "ml"
               conversion_factor := volume_conversions u / volume_conversions VolumeUnit.ml } := by
  have hne : u.str ≠ "" := by cases u <;> decide
  simp only [convert_to_metric]
  rw [strLower_fixes]
  rw [if_neg (by push_neg; exact ⟨hq, hne⟩), if_pos hmem]
  rw [show ("ml" : String) = VolumeUnit.ml.str from rfl,
    convert_volume_str q u VolumeUnit.ml,
    show ("l" : String) = VolumeUnit.l.str from rfl,
    convert_volume_str q u VolumeUnit.l]
  rfl

/-- The spec's metric volume bucketing (C3 amended), written from the spec's
words with the threshold taken on the reported (smart-rounded) ml amount:
the converted quantity/unit pair is `(ml/1000` smart-rounded`, "l")` when the
rounded ml amount reaches 1000, else the rounded ml amount with `"ml"`. -/
def metricVolumeSpec (q : ℚ) (u : VolumeUnit) : ℚ × String :=
  let mlAmount := q * volume_conversions u
  if smart_round mlAmount "ml" ≥ 1000 then (smart_round (mlAmount / 1000) "l", "l")
  else (smart_round mlAmount "ml", "ml")

/-- C3 counterexample: an ingredient already carrying the volume unit "ml"
with quantity 2000 (an amount of at least 1000 ml) is not converted at all by
`_convert_to_metric` — it reports no result, rather than unit "l". -/
theorem metric_bucketing_ml_not_converted :
    convert_to_metric { name := "water", quantity := some 2000, unit := some "ml" }
      = none ∧
    (2000 : ℚ) * volume_conversions VolumeUnit.ml ≥ 1000 := by
  constructor
  · simp only [convert_to_metric]
    rw [show strLower "ml" = "ml" from by decide]
    rw [if_neg (by push_neg; exact ⟨by norm_num, by decide⟩),
      if_neg (by decide), if_neg (by decide),
      if_neg (fun hc => absurd hc.1 (by decide))]
  · norm_num [volume_conversions]

/-- C3 (amended): for a nonzero quantity and an imperial volume unit
(cup/tbsp/tsp/fl oz/pint/quart/gallon), `_convert_to_metric` reports exactly
the spec's bucketing on the smart-rounded ml amount; ingredients whose unit is
already "ml" or "l" are returned unconverted (`None`). -/
theorem metric_bucketing_amended : ∀ (q : ℚ) (name : String) (u : VolumeUnit),
    q ≠ 0 →
    ((u ≠ .ml ∧ u ≠ .l) →
      (convert_to_metric { name := name, quantity := some q, unit := some u.str }).map
        (fun r => (r.converted_quantity, r.converted_unit)) =
          some (metricVolumeSpec q u)) ∧
    ((u = .ml ∨ u = .l) →
      convert_to_metric { name := name, quantity := some q, unit := some u.str }
        = none) := by
  intro q name u hq
  constructor
  · rintro ⟨h1, h2⟩
    have hmem : u.str ∈
        (["cup", "tbsp", "tsp", "fl oz", "pint", "quart", "gallon"] : List String) := by
      cases u
      case ml => exact absurd rfl h1
      case l => exact absurd rfl h2
      all_goals decide
    rw [convert_to_metric_volume_eq q name u hq hmem]
    simp only [metricVolumeSpec]
    have e1 : q * volume_conversions u / volume_conversions VolumeUnit.ml
        = q * volume_conversions u := by
      rw [show volume_conversions VolumeUnit.ml = 1 from rfl, div_one]
    rw [e1]
    split_ifs with h
    · rfl
    · rfl
  · rintro (rfl | rfl)
    · simp only [convert_to_metric]
      rw [show strLower VolumeUnit.ml.str = "ml" from by decide]
      rw [if_neg (by push_neg; exact ⟨hq, by decide⟩),
        if_neg (by decide), if_neg (by decide),
        if_neg (fun hc => absurd hc.1 (by decide))]
    · simp only [convert_to_metric]
      rw [show strLower VolumeUnit.l.str = "l" from by decide]
      rw [if_neg (by push_neg; exact ⟨hq, by decide⟩),
        if_neg (by decide), if_neg (by decide),
        if_neg (fun hc => absurd hc.1 (by decide))]

/-- Witness for the amended metric bucketing at 5 cups of milk: 1182.94 ml
rounds to 1183 ≥ 1000, so the result is 1.18 l. -/
theorem metric_bucketing_amended_witness :
    (convert_to_metric { name := "milk", quantity := some 5, unit := some "cup" }).map
      (fun r => (r.converted_quantity, r.converted_unit)) =
      some (metricVolumeSpec 5 VolumeUnit.cup) ∧
    metricVolumeSpec 5 VolumeUnit.cup = (59/50, "l") := by
  constructor
  · exact (metric_bucketing_amended 5 "milk" VolumeUnit.cup (by norm_num)).1
      ⟨by decide, by decide⟩
  · simp only [metricVolumeSpec]
    norm_num [volume_conversions, smart_round, roundHalfEven, pyRound]
    decide

/-- C9: converting a recipe never mutates the input object.  `convert` deep
copies the recipe into a fresh slot and applies every per-ingredient,
instruction-temperature and note mutation to that slot, so the original store
prefix — the input recipe included, with all its ingredients, instructions and
notes — is unchanged whether or not individual ingredient conversions
succeed; the returned reference designates the fresh slot. -/
theorem convert_preserves_input :
    ∀ (store : List Recipe) (ref : ℕ) (cache : ConversionCache)
      (settings : Settings) (target_system : String),
      ((convert_on_store store ref cache settings target_system).1).take store.length
          = store ∧
      (ref < store.length →
        (convert_on_store store ref cache settings target_system).2.1
          = some store.length) := by
  intro store ref cache settings ts
  constructor
  · unfold convert_on_store
    cases h : store[ref]? with
    | none => simp
    | some recipe => simp [List.take_left]
  · intro h
    unfold convert_on_store
    rw [List.getElem?_eq_getElem h]

/-- Witness for the frame theorem on a one-recipe store. -/
theorem convert_preserves_input_witness :
    ((convert_on_store [{ title := "Tea" }] 0 [] {} "metric").1).take 1
        = [{ title := "Tea" }] ∧
    (convert_on_store [{ title := "Tea" }] 0 [] {} "metric").2.1 = some 1 :=
  ⟨(convert_preserves_input [{ title := "Tea" }] 0 [] {} "metric").1,
   (convert_preserves_input [{ title := "Tea" }] 0 [] {} "metric").2 (by decide)⟩

/-- Python's `str.strip()`: drop leading and trailing whitespace. -/
def strTrim (s : String) : String :=
  ⟨((s.data.dropWhile Char.isWhitespace).reverse.dropWhile Char.isWhitespace).reverse⟩

/-- The `conversions` table of `USDAFoodAPI._convert_to_ml`, in insertion
order. -/
def usda_ml_conversions : List (String × ℚ) :=
  [("cup", 236588/1000), ("cups", 236588/1000),
   ("tablespoon", 14787/1000), ("tablespoons", 14787/1000), ("tbsp", 14787/1000),
   ("teaspoon", 4929/1000), ("teaspoons", 4929/1000), ("tsp", 4929/1000),
   ("fluid ounce", 29574/1000), ("fluid ounces", 29574/1000), ("fl oz", 29574/1000),
   ("fl. oz.", 29574/1000),
   ("ml", 1), ("milliliter", 1), ("milliliters", 1),
   ("liter", 1000), ("liters", 1000), ("l", 1000),
   ("pint", 473176/1000), ("pints", 473176/1000),
   ("quart", 946353/1000), ("quarts", 946353/1000),
   ("gallon", 378541/100), ("gallons", 378541/100)]

/-- `USDAFoodAPI._convert_to_ml`: exact table match, then partial (substring)
match, else `None`. -/
def usda_convert_to_ml (amount : ℚ) (unit_name : String) : Option ℚ :=
  let u := strTrim (strLower unit_name)
  match usda_ml_conversions.find? (fun p => p.1 == u) with
  | some p => some (amount * p.2)
  | none =>
    match usda_ml_conversions.find?
        (fun p => strContains u p.1 || strContains p.1 u) with
    | some p => some (amount * p.2)
    | none => none

/-- The `calculation_details` sub-dictionary of a USDA density result. -/
structure CalculationDetails where
  amount : ℚ
  unit : String
  weight_g : ℚ
  volume_ml : ℚ
deriving DecidableEq, Repr

/-- The density-info dictionary shape shared by USDA and local results. -/
structure DensityInfo where
  name : String
  category : String
  density_g_ml : ℚ
  source : String
  match_score : ℚ
  search_name : String
  calculation_details : Option CalculationDetails := none
deriving DecidableEq, Repr

/-- `USDAFoodAPI._calculate_density_from_portion`: derives grams-per-ml from a
volume portion and rejects densities outside the plausible band `[0.1, 3.0]`. -/
def calculate_density_from_portion (amount : ℚ) (unit_name : String)
    (gram_weight : ℚ) (description : String) (fdc_id : ℤ) : Option DensityInfo :=
  match usda_convert_to_ml amount unit_name with
  | none => none
  | some volume_ml =>
    if volume_ml = 0 ∨ volume_ml ≤ 0 then none
    else
      let density_g_ml := gram_weight / volume_ml
      if density_g_ml < 1/10 ∨ density_g_ml > 3 then none
      else some
        { name := description
          category := "USDA FoodData Central"
          density_g_ml := density_g_ml
          source := "USDA FDC ID: " ++ toString fdc_id
          match_score := 8/10
          search_name := strLower description
          calculation_details := some ⟨amount, unit_name, gram_weight, volume_ml⟩ }

/-- One row of the local density table after `_load_densities` (name,
category, parsed density, normalized search name). -/
structure DRow where
  name : String
  category : String
  density_g_ml : ℚ
  search_name : String
deriving DecidableEq, Repr

/-- `DensityLookup._load_densities`, modelled on already-parsed cells: the
density parser (`_parse_density_value` over the TSV, a repository data file
not under `src/`) yields an optional rational per raw row; rows without a
valid density are filtered out and a normalized search name is attached. -/
def load_densities (normalize : String → String)
    (raw : List (String × String × Option ℚ)) : List DRow :=
  raw.filterMap fun r =>
    match r.2.2 with
    | some d => some
        { name := r.1, category := r.2.1, density_g_ml := d,
          search_name := normalize r.1 }
    | none => none

/-- An entry of `DensityLookup.search_index`: a full-name row or a word-keyed
row list. -/
inductive IndexEntry
  | row (r : DRow)
  | rows (rs : List DRow)
deriving DecidableEq, Repr

/-- The rows held by an index entry. -/
def rowsOf : IndexEntry → List DRow
  | .row r => [r]
  | .rows rs => rs

/-- Python dict assignment `d[k] = v` on an insertion-ordered association
list: in-place update if present, else append. -/
def indexSet (idx : List (String × IndexEntry)) (k : String) (v : IndexEntry) :
    List (String × IndexEntry) :=
  match idx with
  | [] => [(k, v)]
  | (k', v') :: t => if k' == k then (k', v) :: t else (k', v') :: indexSet t k v

/-- Python dict lookup `d.get(k)`. -/
def indexGet (idx : List (String × IndexEntry)) (k : String) : Option IndexEntry :=
  (idx.find? (fun p => p.1 == k)).map Prod.snd

/-- Python's `str.split()`: whitespace-separated words. -/
def wordsAux : List Char → List Char → List String
  | [], acc => if acc.isEmpty then [] else [⟨acc.reverse⟩]
  | c :: t, acc =>
    if c.isWhitespace then
      if acc.isEmpty then wordsAux t [] else ⟨acc.reverse⟩ :: wordsAux t []
    else wordsAux t (c :: acc)

/-- Python's `str.split()` on a string. -/
def splitWords (s : String) : List String := wordsAux s.data []

/-- The word-insertion steps of `_build_search_index` for one word. -/
def addWord (idx : List (String × IndexEntry)) (word : String) (row : DRow) :
    List (String × IndexEntry) :=
  let idx1 := if (indexGet idx word).isNone then indexSet idx word (.rows []) else idx
  let idx2 :=
    match indexGet idx1 word with
    | some (.row r) => indexSet idx1 word (.rows [r])
    | _ => idx1
  match indexGet idx2 word with
  | some (.rows rs) => indexSet idx2 word (.rows (rs ++ [row]))
  | _ => idx2

/-- One iteration of `_build_search_index`: register the full search name,
then each word longer than two characters. -/
def addRowToIndex (idx : List (String × IndexEntry)) (row : DRow) :
    List (String × IndexEntry) :=
  if row.search_name ≠ "" then
    let idx1 := indexSet idx row.search_name (.row row)
    (splitWords row.search_name).foldl
      (fun acc w => if w.length > 2 then addWord acc w row else acc) idx1
  else idx

/-- `DensityLookup._build_search_index`. -/
def build_search_index (table : List DRow) : List (String × IndexEntry) :=
  table.foldl addRowToIndex []

/-- `DensityLookup._format_density_result`. -/
def format_density_result (row : DRow) (score : ℚ) : DensityInfo :=
  { name := row.name
    category := row.category
    density_g_ml := row.density_g_ml
    source := ""
    match_score := score
    search_name := row.search_name }

/-- `DensityLookup._find_density_local`: exact index hit, then fuzzy scan over
full-name entries, then word-level scan, each gated by the similarity
threshold.  The third-party `SequenceMatcher.ratio` and the regex-based
`_normalize_ingredient_name` are taken as function parameters. -/
def find_density_local (sim : String → String → ℚ)
    (normalize : String → String) (table : List DRow)
    (ingredient_name : String) (threshold : ℚ) : Option DensityInfo :=
  if table = [] then none
  else
    let idx := build_search_index table
    let normalized_name := normalize ingredient_name
    let exact : Option DensityInfo :=
      match indexGet idx normalized_name with
      | some (.row r) => some (format_density_result r 1)
      | _ => none
    match exact with
    | some r => some r
    | none =>
      let fuzzyState := idx.foldl
        (fun st p =>
          match p.2 with
          | .rows _ => st
          | .row r =>
            let s := sim normalized_name p.1
            if s > st.1 ∧ s ≥ threshold then (s, some r) else st)
        ((0:ℚ), (none : Option DRow))
      match fuzzyState.2 with
      | some r => some (format_density_result r fuzzyState.1)
      | none =>
        let wordState := (splitWords normalized_name).foldl
          (fun st w =>
            match indexGet idx w with
            | some (.rows rs) =>
              rs.foldl
                (fun st2 r =>
                  let s := sim normalized_name r.search_name
                  if s > st2.1 ∧ s ≥ threshold then (s, some r) else st2)
                st
            | _ => st)
          fuzzyState
        match wordState.2 with
        | some r => some (format_density_result r wordState.1)
        | none => none

/-- Outcome of one call to the external USDA lookup: a completed search
(possibly empty) or a raised exception. -/
inductive ApiOutcome
  | success (info : Option DensityInfo)
  | failure (msg : String)

/-- `DensityLookup._find_density_usda`: checks the per-process cache, else
queries the external API once; completed results (including `None`) are
cached, a raised exception is caught and returns `None` without caching.  The
third component counts the external calls performed (0 or 1). -/
def find_density_usda (api : String → ApiOutcome)
    (cache : List (String × Option DensityInfo)) (ingredient_name : String) :
    Option DensityInfo × List (String × Option DensityInfo) × ℕ :=
  match cache.find? (fun p => p.1 == ingredient_name) with
  | some p => (p.2, cache, 0)
  | none =>
    match api ingredient_name with
    | .success density_info =>
        (density_info, cache ++ [(ingredient_name, density_info)], 1)
    | .failure _ => (none, cache, 1)

/-- Index invariant: every row held by any entry satisfies `P`. -/
def IdxOK (P : DRow → Prop) (idx : List (String × IndexEntry)) : Prop :=
  ∀ p ∈ idx, ∀ r ∈ rowsOf p.2, P r

/-- State invariant for the best-match scans. -/
def StOK (P : DRow → Prop) (st : ℚ × Option DRow) : Prop :=
  ∀ r, st.2 = some r → P r

/-- Dict assignment preserves the index invariant. -/
theorem indexSet_ok {P : DRow → Prop} {idx : List (String × IndexEntry)}
    {k : String} {v : IndexEntry} (h : IdxOK P idx)
    (hv : ∀ r ∈ rowsOf v, P r) : IdxOK P (indexSet idx k v) := by
  induction idx with
  | nil =>
    intro p hp
    simp only [indexSet, List.mem_singleton] at hp
    subst hp
    exact hv
  | cons a t ih =>
    intro p hp
    simp only [indexSet] at hp
    split_ifs at hp with hk
    · rcases List.mem_cons.mp hp with rfl | hmem
      · exact hv
      · exact h p (List.mem_cons_of_mem _ hmem)
    · rcases List.mem_cons.mp hp with rfl | hmem
      · exact h a (List.mem_cons_self _ _)
      · exact ih (fun q hq => h q (List.mem_cons_of_mem _ hq)) p hmem

/-- Dict lookup only returns rows covered by the index invariant. -/
theorem indexGet_ok {P : DRow → Prop} {idx : List (String × IndexEntry)}
    {k : String} {e : IndexEntry} (h : IdxOK P idx)
    (hg : indexGet idx k = some e) : ∀ r ∈ rowsOf e, P r := by
  unfold indexGet at hg
  cases hf : idx.find? (fun p => p.1 == k) with
  | none => rw [hf] at hg; exact absurd hg (by simp)
  | some q =>
    rw [hf] at hg
    obtain rfl : q.2 = e := by simpa using hg
    exact h q (List.mem_of_find?_eq_some hf)

/-- Word insertion preserves the index invariant. -/
theorem addWord_ok {P : DRow → Prop} {idx : List (String × IndexEntry)}
    {w : String} {row : DRow} (h : IdxOK P idx) (hrow : P row) :
    IdxOK P (addWord idx w row) := by
  have gen2 : ∀ (j : List (String × IndexEntry)), IdxOK P j →
      IdxOK P (match indexGet j w with
        | some (.row r) => indexSet j w (.rows [r])
        | _ => j) := by
    intro j hj
    cases hg : indexGet j w with
    | none => exact hj
    | some e =>
      cases e with
      | rows rs => exact hj
      | row r =>
        apply indexSet_ok hj
        intro r2 hr2
        simp only [rowsOf, List.mem_singleton] at hr2
        subst hr2
        exact indexGet_ok hj hg _ (by simp [rowsOf])
  have gen : ∀ (j : List (String × IndexEntry)), IdxOK P j →
      IdxOK P (match indexGet j w with
        | some (.rows rs) => indexSet j w (.rows (rs ++ [row]))
        | _ => j) := by
    intro j hj
    cases hg : indexGet j w with
    | none => exact hj
    | some e =>
      cases e with
      | row r => exact hj
      | rows rs =>
        apply indexSet_ok hj
        intro r hr
        simp only [rowsOf] at hr
        rcases List.mem_append.mp hr with hmem | hmem
        · exact indexGet_ok hj hg r (by simpa [rowsOf] using hmem)
        · simp only [List.mem_singleton] at hmem
          subst hmem
          exact hrow
  have h1 : IdxOK P (if (indexGet idx w).isNone then indexSet idx w (.rows []) else idx) := by
    split_ifs
    · exact indexSet_ok h (by simp [rowsOf])
    · exact h
  unfold addWord
  exact gen _ (gen2 _ h1)

/-- The word-insertion fold preserves the index invariant. -/
theorem foldl_addWord_ok {P : DRow → Prop} {row : DRow} (hrow : P row) :
    ∀ (ws : List String) (j : List (String × IndexEntry)), IdxOK P j →
      IdxOK P (ws.foldl
        (fun acc w => if w.length > 2 then addWord acc w row else acc) j) := by
  intro ws
  induction ws with
  | nil => intro j hj; exact hj
  | cons w t ih =>
    intro j hj
    simp only [List.foldl_cons]
    apply ih
    split_ifs
    · exact addWord_ok hj hrow
    · exact hj

/-- Registering a row preserves the index invariant. -/
theorem addRowToIndex_ok {P : DRow → Prop} {idx : List (String × IndexEntry)}
    {row : DRow} (h : IdxOK P idx) (hrow : P row) :
    IdxOK P (addRowToIndex idx row) := by
  unfold addRowToIndex
  split_ifs with hn
  · apply foldl_addWord_ok hrow
    apply indexSet_ok h
    intro r hr
    simp only [rowsOf, List.mem_singleton] at hr
    subst hr
    exact hrow
  · exact h

/-- Every row in the built search index comes from the table. -/
theorem build_search_index_ok (P : DRow → Prop) (table : List DRow)
    (h : ∀ r ∈ table, P r) : IdxOK P (build_search_index table) := by
  unfold build_search_index
  have gen : ∀ (l : List DRow) (j : List (String × IndexEntry)),
      (∀ r ∈ l, P r) → IdxOK P j → IdxOK P (l.foldl addRowToIndex j) := by
    intro l
    induction l with
    | nil => intro j _ hj; exact hj
    | cons a t ih =>
      intro j hl hj
      simp only [List.foldl_cons]
      exact ih _ (fun r hr => hl r (List.mem_cons_of_mem _ hr))
        (addRowToIndex_ok hj (hl a (List.mem_cons_self _ _)))
  exact gen table [] h (by intro p hp; simp at hp)

/-- The fuzzy full-name scan preserves the best-match state invariant. -/
theorem fuzzy_fold_ok {P : DRow → Prop} (sim : String → String → ℚ)
    (nq : String) (th : ℚ) :
    ∀ (l : List (String × IndexEntry)) (st : ℚ × Option DRow),
      (∀ p ∈ l, ∀ r ∈ rowsOf p.2, P r) → StOK P st →
      StOK P (l.foldl
        (fun st p =>
          match p.2 with
          | .rows _ => st
          | .row r =>
            let s := sim nq p.1
            if s > st.1 ∧ s ≥ th then (s, some r) else st) st) := by
  intro l
  induction l with
  | nil => intro st _ hst; exact hst
  | cons a t ih =>
    intro st hl hst
    simp only [List.foldl_cons]
    apply ih _ (fun p hp => hl p (List.mem_cons_of_mem _ hp))
    cases ha : a.2 with
    | rows rs => simpa [ha] using hst
    | row r =>
      simp only [ha]
      intro r2 hr2
      by_cases hc : sim nq a.1 > st.1 ∧ sim nq a.1 ≥ th
      · rw [if_pos hc] at hr2
        simp only at hr2
        obtain rfl := Option.some.inj hr2
        exact hl a (List.mem_cons_self _ _) _ (by simp [ha, rowsOf])
      · rw [if_neg hc] at hr2
        exact hst r2 hr2

/-- The inner row scan of the word-level pass preserves the state invariant. -/
theorem rows_fold_ok {P : DRow → Prop} (sim : String → String → ℚ)
    (nq : String) (th : ℚ) :
    ∀ (rs : List DRow) (st : ℚ × Option DRow),
      (∀ r ∈ rs, P r) → StOK P st →
      StOK P (rs.foldl
        (fun st2 r =>
          let s := sim nq r.search_name
          if s > st2.1 ∧ s ≥ th then (s, some r) else st2) st) := by
  intro rs
  induction rs with
  | nil => intro st _ hst; exact hst
  | cons a t ih =>
    intro st hl hst
    simp only [List.foldl_cons]
    apply ih _ (fun r hr => hl r (List.mem_cons_of_mem _ hr))
    intro r2 hr2
    by_cases hc : sim nq a.search_name > st.1 ∧ sim nq a.search_name ≥ th
    · rw [if_pos hc] at hr2
      simp only at hr2
      obtain rfl := Option.some.inj hr2
      exact hl a (List.mem_cons_self _ _)
    · rw [if_neg hc] at hr2
      exact hst r2 hr2

/-- The word-level pass preserves the state invariant. -/
theorem word_fold_ok {P : DRow → Prop} (sim : String → String → ℚ)
    (nq : String) (th : ℚ) {idx : List (String × IndexEntry)}
    (hidx : IdxOK P idx) :
    ∀ (ws : List String) (st : ℚ × Option DRow), StOK P st →
      StOK P (ws.foldl
        (fun st w =>
          match indexGet idx w with
          | some (.rows rs) =>
            rs.foldl
              (fun st2 r =>
                let s := sim nq r.search_name
                if s > st2.1 ∧ s ≥ th then (s, some r) else st2) st
          | _ => st) st) := by
  intro ws
  induction ws with
  | nil => intro st hst; exact hst
  | cons w t ih =>
    intro st hst
    simp only [List.foldl_cons]
    apply ih
    cases hg : indexGet idx w with
    | none => simpa [hg] using hst
    | some e =>
      cases e with
      | row r => simpa [hg] using hst
      | rows rs =>
        simp only [hg]
        exact rows_fold_ok sim nq th rs st
          (fun r hr => indexGet_ok hidx hg r (by simpa [rowsOf] using hr)) hst

/-- C6: no density record stored or returned is outside the band
`[0.1, 3.0]`: USDA-derived densities outside the band are rejected as lookup
failures; and, with the local table's parsed densities in band (the TSV data
file is outside `src/` and is modelled per the spec's invariant), every stored
row and every result of the local lookup stays in band. -/
theorem density_band_invariant :
    (∀ (amount : ℚ) (unit_name : String) (gram_weight : ℚ) (description : String)
        (fdc_id : ℤ) (info : DensityInfo),
      calculate_density_from_portion amount unit_name gram_weight description fdc_id
          = some info →
      1/10 ≤ info.density_g_ml ∧ info.density_g_ml ≤ 3) ∧
    (∀ (normalize : String → String) (raw : List (String × String × Option ℚ)),
      (∀ r ∈ raw, ∀ d : ℚ, r.2.2 = some d → 1/10 ≤ d ∧ d ≤ 3) →
      ∀ row ∈ load_densities normalize raw,
        1/10 ≤ row.density_g_ml ∧ row.density_g_ml ≤ 3) ∧
    (∀ (sim : String → String → ℚ) (normalize : String → String)
        (table : List DRow) (ingredient_name : String) (threshold : ℚ)
        (res : DensityInfo),
      (∀ row ∈ table, 1/10 ≤ row.density_g_ml ∧ row.density_g_ml ≤ 3) →
      find_density_local sim normalize table ingredient_name threshold = some res →
      1/10 ≤ res.density_g_ml ∧ res.density_g_ml ≤ 3) := by
  refine ⟨?_, ?_, ?_⟩
  · intro amount unit_name gram_weight description fdc_id info h
    cases hml : usda_convert_to_ml amount unit_name with
    | none =>
      simp only [calculate_density_from_portion, hml] at h
      exact Option.noConfusion h
    | some volume_ml =>
      simp only [calculate_density_from_portion, hml] at h
      split_ifs at h with h1 h2
      all_goals
        first
          | exact Option.noConfusion h
          | (obtain rfl := Option.some.inj h
             push_neg at h2
             exact ⟨h2.1, h2.2⟩)
  · intro normalize raw hraw row hrow
    unfold load_densities at hrow
    obtain ⟨a, ha, heq⟩ := List.mem_filterMap.mp hrow
    cases hd : a.2.2 with
    | none => rw [hd] at heq; exact Option.noConfusion heq
    | some d =>
      rw [hd] at heq
      obtain rfl := Option.some.inj heq
      exact hraw a ha d hd
  · intro sim normalize table ingredient_name threshold res hband h
    set P := fun r : DRow => 1/10 ≤ r.density_g_ml ∧ r.density_g_ml ≤ 3 with hP
    simp only [find_density_local] at h
    split_ifs at h with ht
    have hidx : IdxOK P (build_search_index table) :=
      build_search_index_ok P table hband
    cases hg : indexGet (build_search_index table) (normalize ingredient_name) with
    | some e =>
      cases e with
      | row r =>
        simp only [hg] at h
        obtain rfl := Option.some.inj h
        exact indexGet_ok hidx hg r (by simp [rowsOf])
      | rows rs =>
        simp only [hg] at h
        split at h
        next r0 hf =>
          obtain rfl := Option.some.inj h
          have hst0 : StOK P ((0:ℚ), (none : Option DRow)) :=
            fun r hr => Option.noConfusion hr
          have hst := fuzzy_fold_ok sim (normalize ingredient_name) threshold
            (build_search_index table) ((0:ℚ), (none : Option DRow)) hidx hst0
          exact hst r0 hf
        next hf =>
          split at h
          next r0 hf2 =>
            obtain rfl := Option.some.inj h
            have hst0 : StOK P ((0:ℚ), (none : Option DRow)) :=
              fun r hr => Option.noConfusion hr
            have hstF := fuzzy_fold_ok sim (normalize ingredient_name) threshold
              (build_search_index table) ((0:ℚ), (none : Option DRow)) hidx hst0
            have hstW := word_fold_ok sim (normalize ingredient_name) threshold
              hidx (splitWords (normalize ingredient_name)) _ hstF
            exact hstW r0 hf2
          next hf2 => exact Option.noConfusion h
    | none =>
      simp only [hg] at h
      split at h
      next r0 hf =>
        obtain rfl := Option.some.inj h
        have hst0 : StOK P ((0:ℚ), (none : Option DRow)) :=
          fun r hr => Option.noConfusion hr
        have hst := fuzzy_fold_ok sim (normalize ingredient_name) threshold
          (build_search_index table) ((0:ℚ), (none : Option DRow)) hidx hst0
        exact hst r0 hf
      next hf =>
        split at h
        next r0 hf2 =>
          obtain rfl := Option.some.inj h
          have hst0 : StOK P ((0:ℚ), (none : Option DRow)) :=
            fun r hr => Option.noConfusion hr
          have hstF := fuzzy_fold_ok sim (normalize ingredient_name) threshold
            (build_search_index table) ((0:ℚ), (none : Option DRow)) hidx hst0
          have hstW := word_fold_ok sim (normalize ingredient_name) threshold
            hidx (splitWords (normalize ingredient_name)) _ hstF
          exact hstW r0 hf2
        next hf2 => exact Option.noConfusion h

/-- The USDA result derived from "1 cup, 130 g" for flour. -/
def usdaFlourInfo : DensityInfo :=
  { name := "flour"
    category := "USDA FoodData Central"
    density_g_ml := 130 / (1 * (236588/1000))
    source := "USDA FDC ID: " ++ toString (99:ℤ)
    match_score := 8/10
    search_name := strLower "flour"
    calculation_details := some ⟨1, "cup", 130, 1 * (236588/1000)⟩ }

/-- Witness for the density-band theorem: a 130 g cup portion yields an
accepted density of about 0.55 g/ml, inside the band. -/
theorem density_band_invariant_witness :
    calculate_density_from_portion 1 "cup" 130 "flour" 99 = some usdaFlourInfo ∧
    1/10 ≤ usdaFlourInfo.density_g_ml ∧ usdaFlourInfo.density_g_ml ≤ 3 := by
  have hml : usda_convert_to_ml 1 "cup" = some (1 * (236588/1000)) := rfl
  have hconv : calculate_density_from_portion 1 "cup" 130 "flour" 99
      = some usdaFlourInfo := by
    simp only [calculate_density_from_portion, hml]
    rw [if_neg (by norm_num), if_neg (by norm_num)]
    rfl
  exact ⟨hconv, density_band_invariant.1 1 "cup" 130 "flour" 99 usdaFlourInfo hconv⟩

/-- `find?` skips a prefix in which nothing matches. -/
theorem find_none_append {α} (p : α → Bool) {l1 : List α} (l2 : List α)
    (h : l1.find? p = none) : (l1 ++ l2).find? p = l2.find? p := by
  induction l1 with
  | nil => simp
  | cons a t ih =>
    by_cases hpa : p a = true
    · rw [List.find?_cons_of_pos _ hpa] at h
      exact Option.noConfusion h
    · rw [List.find?_cons_of_neg _ hpa] at h
      rw [List.cons_append, List.find?_cons_of_neg _ hpa]
      exact ih h

/-- An external lookup that always raises (network/parse error). -/
def apiFail : String → ApiOutcome := fun _ => .failure "network error"

/-- C8 counterexample: a query that fails with an error is NOT cached — the
first lookup performs an external call, stores nothing, and a second lookup of
the same name performs a second external call. -/
theorem usda_error_not_cached :
    find_density_usda apiFail [] "flour" = (none, [], 1) ∧
    (find_density_usda apiFail
        ((find_density_usda apiFail [] "flour").2.1) "flour").2.2 = 1 :=
  ⟨rfl, rfl⟩

/-- C8 (amended): completed external queries — including those returning no
result — are cached by ingredient name for the process lifetime, so a second
lookup of the same name performs no second external call; queries that fail
with a network/parse error return `None` without being cached, and are
retried on the next lookup. -/
theorem usda_cache_amended :
    ∀ (api : String → ApiOutcome) (cache : List (String × Option DensityInfo))
      (ingredient_name : String),
    (∀ p, cache.find? (fun q => q.1 == ingredient_name) = some p →
      find_density_usda api cache ingredient_name = (p.2, cache, 0)) ∧
    (∀ info, cache.find? (fun q => q.1 == ingredient_name) = none →
      api ingredient_name = .success info →
      find_density_usda api cache ingredient_name
          = (info, cache ++ [(ingredient_name, info)], 1) ∧
      find_density_usda api (cache ++ [(ingredient_name, info)]) ingredient_name
          = (info, cache ++ [(ingredient_name, info)], 0)) ∧
    (∀ msg, cache.find? (fun q => q.1 == ingredient_name) = none →
      api ingredient_name = .failure msg →
      find_density_usda api cache ingredient_name = (none, cache, 1)) := by
  intro api cache ingredient_name
  refine ⟨?_, ?_, ?_⟩
  · intro p hp
    simp only [find_density_usda, hp]
  · intro info hnone hapi
    constructor
    · simp only [find_density_usda, hnone, hapi]
    · have hfind : (cache ++ [(ingredient_name, info)]).find?
          (fun q => q.1 == ingredient_name) = some (ingredient_name, info) := by
        rw [find_none_append _ _ hnone]
        rw [List.find?_cons_of_pos _ (by simp)]
      simp only [find_density_usda, hfind]
  · intro msg hnone hapi
    simp only [find_density_usda, hnone, hapi]

/-- An external lookup that completes with no result. -/
def apiNotFound : String → ApiOutcome := fun _ => .success none

/-- Witness for the amended caching theorem: a completed empty lookup of
"flour" is cached as a negative result, and the second lookup makes no call. -/
theorem usda_cache_amended_witness :
    find_density_usda apiNotFound [] "flour" = (none, [("flour", none)], 1) ∧
    find_density_usda apiNotFound [("flour", none)] "flour"
      = (none, [("flour", none)], 0) :=
  (usda_cache_amended apiNotFound [] "flour").2.1 none rfl rfl

end RecipesAgent
